import Mathlib

/-!
Shallow embedding of the `yet-another-slay-clone` game engine
(`src/game/{ids,location,consts,rules,engine}.rs`) and proofs about the
claims of its specification.

Modelling conventions:

* Rust `HashMap`/`HashSet` values are embedded as association lists /
  duplicate-free lists kept in deterministic (insertion) order.  The source
  iterates hash containers in an unspecified order; the specification itself
  notes these tie-breaks are "somehow random" and instructs implementers to
  pick a deterministic order, which this embedding does.
* Rust panics (`unwrap`, `expect`, `panic!`, out-of-bounds indexing) are
  embedded as `Option.none`; a returned error is `some` of the error value.
* `u32` arithmetic of the id producer is embedded as `Nat` reduced modulo
  `2 ^ 32` (release-mode wrapping semantics of `+=`).
* Money (`i32`) is embedded as `Int`; the Rust `/` on `i32` truncates
  towards zero, which is `Int.tdiv`.
-/

namespace Yasc

/-! ## `ids.rs` -/

abbrev ID := Nat

def NO_ID : ID := 0

def U32_SIZE : Nat := 2 ^ 32

/-- `IdProducer` from `ids.rs`: a counter issuing ids, starting after `NO_ID`. -/
structure IdProducer where
  last_issued_id : ID
  deriving DecidableEq

def IdProducer.new : IdProducer := ⟨NO_ID⟩

/-- `IdProducer::next`: `self.last_issued_id += 1; self.last_issued_id`
(`u32` addition, hence modulo `2 ^ 32`). -/
def IdProducer.next (p : IdProducer) : ID × IdProducer :=
  let v := (p.last_issued_id + 1) % U32_SIZE
  (v, ⟨v⟩)

/-- `next_id` is the name used by callers in `engine.rs` / `test_util.rs`
for the same allocation operation. -/
def IdProducer.next_id (p : IdProducer) : ID × IdProducer := p.next

/-- The producer state after `n` calls of `next` on a fresh producer. -/
def producerAfter : Nat → IdProducer
  | 0 => IdProducer.new
  | n + 1 => (producerAfter n).next.2

/-- The id returned by the `n`-th call of `next` on a fresh producer
(`next` returns the updated counter). -/
def nthIssuedId (n : Nat) : ID := (producerAfter n).last_issued_id

/-! ## Coordinates (`hex2d` axial coordinates, re-exported as `Coord`) -/

structure Coord where
  x : Int
  y : Int
  deriving DecidableEq

/-- The six axial hex neighbours of a coordinate (fixed traversal order). -/
def Coord.neighbors (c : Coord) : List Coord :=
  [⟨c.x + 1, c.y⟩, ⟨c.x - 1, c.y⟩, ⟨c.x, c.y + 1⟩,
   ⟨c.x, c.y - 1⟩, ⟨c.x + 1, c.y - 1⟩, ⟨c.x - 1, c.y + 1⟩]

/-! ## Association list helpers (embedding of `HashMap` with a
deterministic iteration order).  `insertA` replaces the value of an existing
key in place (as `HashMap::insert` does) and appends new keys. -/

def lookupA {α β : Type} [DecidableEq α] : List (α × β) → α → Option β
  | [], _ => none
  | (k, v) :: rest, a => if k = a then some v else lookupA rest a

def containsA {α β : Type} [DecidableEq α] (l : List (α × β)) (a : α) : Bool :=
  (lookupA l a).isSome

def insertA {α β : Type} [DecidableEq α] : List (α × β) → α → β → List (α × β)
  | [], a, b => [(a, b)]
  | (k, v) :: rest, a, b =>
    if k = a then (k, b) :: rest else (k, v) :: insertA rest a b

def removeA {α β : Type} [DecidableEq α] : List (α × β) → α → List (α × β)
  | [], _ => []
  | (k, v) :: rest, a => if k = a then removeA rest a else (k, v) :: removeA rest a

def keysA {α β : Type} (l : List (α × β)) : List α := l.map Prod.fst

def valuesA {α β : Type} (l : List (α × β)) : List β := l.map Prod.snd

/-- The unit type of successful validation results (Rust's `()`), pinned to
`Type 0`. -/
abbrev OkUnit : Type := PUnit

/-! ## `location.rs`: units, tiles, players, regions -/

/-- `UnitType` from `location.rs` (the baseline variant of the catalog). -/
inductive UnitType where
  | Grave | PineTree | PalmTree | Village | Tower
  | GreatKnight | Knight | Soldier | Militia
  deriving DecidableEq

/-- `Unit` from `location.rs`: an id plus a type tag. -/
structure Unit where
  id : ID
  unit_type : UnitType
  deriving DecidableEq

inductive TileSurface where
  | Water
  | Land
  deriving DecidableEq

def TileSurface.is_land (s : TileSurface) : Bool := s = TileSurface.Land

def TileSurface.is_water (s : TileSurface) : Bool := s = TileSurface.Water

/-- `Tile` from `location.rs`. -/
structure Tile where
  id : ID
  surface : TileSurface
  unit : Option Unit
  deriving DecidableEq

def Tile.new (id : ID) (surface : TileSurface) : Tile := ⟨id, surface, none⟩

def Tile.take_unit (t : Tile) : Option Unit × Tile := (t.unit, { t with unit := none })

def Tile.place_unit (t : Tile) (u : Unit) : Tile := { t with unit := some u }

structure Player where
  id : ID
  deriving DecidableEq

/-- `Region` from `location.rs`: id, owner and a non-empty coordinate set
(embedded as a duplicate-free list in insertion order). -/
structure Region where
  id : ID
  owner : Player
  coordinates : List Coord
  deriving DecidableEq

def Region.insertCoord (r : Region) (c : Coord) : Region :=
  if r.coordinates.contains c then r else { r with coordinates := r.coordinates ++ [c] }

def Region.removeCoord (r : Region) (c : Coord) : Region :=
  { r with coordinates := r.coordinates.filter (fun c0 => c0 ≠ c) }

inductive RegionTransformation where
  | Merge (from_ : ID) (into : ID)
  | Delete (id : ID)
  | Split (from_ : ID) (into : List ID)
  deriving DecidableEq

inductive LocationValidationError where
  | DuplicateRegionId (id : ID)
  | SplitRegions (id : ID)
  | IntersectingRegions (c : Coord)
  | SameOwnerBorderingRegions (i1 i2 : ID)
  deriving DecidableEq

inductive LocationModificationError where
  | CoordinateOutOfLocation (c : Coord)
  | NoUnitAtCoordinate (c : Coord)
  | CoordinateNotAdjacentToRegion (c : Coord)
  | NoSuchRegion (id : ID)
  | InvalidResult (e : LocationValidationError)
  deriving DecidableEq

/-- `Location` from `location.rs`: tile map, region table and the
coordinate-to-region index. -/
structure Location where
  map : List (Coord × Tile)
  regions : List (ID × Region)
  coordinate_to_region : List (Coord × ID)
  deriving DecidableEq

def Location.tile_at (loc : Location) (c : Coord) : Option Tile :=
  lookupA loc.map c

def Location.region_at (loc : Location) (c : Coord) : Option Region :=
  (lookupA loc.coordinate_to_region c).bind (fun id => lookupA loc.regions id)

/-! ### Breadth-first traversal (`BfsIter` from `location.rs`)

One queue element is popped per recursion step.  A coordinate is enqueued
only while unprocessed and is marked processed immediately afterwards, and
only coordinates that have a tile are enqueued, so at most
`loc.map.length + 1` elements are ever popped; that value is used as fuel,
making the recursion total without changing the computed traversal. -/

def bfsProcessNeighbors (loc : Location) (pred : Coord → Bool) (d : Nat) :
    List Coord → List (Nat × Coord) → List Coord → List (Nat × Coord) × List Coord
  | [], queue, processed => (queue, processed)
  | n :: rest, queue, processed =>
    let queue' :=
      if ¬ processed.contains n ∧ (loc.tile_at n).isSome ∧ pred n then
        queue ++ [(d + 1, n)]
      else queue
    bfsProcessNeighbors loc pred d rest queue'
      (if processed.contains n then processed else processed ++ [n])

def bfsRun (loc : Location) (pred : Coord → Bool) :
    Nat → List (Nat × Coord) → List Coord → List (Nat × Coord)
  | 0, _, _ => []
  | _ + 1, [], _ => []
  | fuel + 1, (d, c) :: rest, processed =>
    let (queue', processed') := bfsProcessNeighbors loc pred d c.neighbors rest processed
    (d, c) :: bfsRun loc pred fuel queue' processed'

/-- The `(distance, coordinate)` pairs yielded by `bfs_iter`, in visit order. -/
def Location.bfs_iter_list (loc : Location) (c : Coord) (pred : Coord → Bool) :
    List (Nat × Coord) :=
  if pred c ∧ (loc.tile_at c).isSome then
    bfsRun loc pred (loc.map.length + 1) [(0, c)] [c]
  else []

/-- `bfs_all` / `bfs_set`: all coordinates matching the predicate that are
reachable from `c` (a `HashSet` in the source, a duplicate-free list here). -/
def Location.bfs_all (loc : Location) (c : Coord) (pred : Coord → Bool) : List Coord :=
  (loc.bfs_iter_list c pred).map Prod.snd

/-- `bfs_distance`: shortest distance between two coordinates through
coordinates matching the predicate. -/
def Location.bfs_distance (loc : Location) (from_ to_ : Coord) (pred : Coord → Bool) :
    Option Nat :=
  ((loc.bfs_iter_list from_ pred).find? (fun p => p.2 = to_)).map Prod.fst

/-! ### Unit placement / removal (`location.rs`); an error return leaves the
location unchanged, as the source documents. -/

def Location.remove_unit (loc : Location) (c : Coord) :
    Except LocationModificationError (Option Unit × Location) :=
  match lookupA loc.map c with
  | none => .error (.CoordinateOutOfLocation c)
  | some t =>
    let (u, t') := t.take_unit
    .ok (u, { loc with map := insertA loc.map c t' })

def Location.place_unit (loc : Location) (u : Unit) (dst : Coord) :
    Except LocationModificationError Location :=
  match lookupA loc.map dst with
  | none => .error (.CoordinateOutOfLocation dst)
  | some t => .ok { loc with map := insertA loc.map dst (t.place_unit u) }

def Location.move_unit (loc : Location) (from_ to_ : Coord) :
    Except LocationModificationError Location :=
  if ¬ containsA loc.map to_ then .error (.CoordinateOutOfLocation to_)
  else
    match lookupA loc.map from_ with
    | none => .error (.CoordinateOutOfLocation from_)
    | some t =>
      match t.take_unit with
      | (none, _) => .error (.NoUnitAtCoordinate from_)
      | (some u, t') =>
        Location.place_unit { loc with map := insertA loc.map from_ t' } u to_

/-! ### `Location::validate` -/

/-- First coordinate of the scan that was already seen (used for the
`IntersectingRegions` check). -/
def firstDuplicateCoord : List Coord → List Coord → Option Coord
  | [], _ => none
  | c :: rest, seen =>
    if seen.contains c then some c else firstDuplicateCoord rest (c :: seen)

/-- First region whose coordinate set is not BFS-connected. -/
def findSplitRegion (loc : Location) : List (ID × Region) → Option ID
  | [] => none
  | (_, r) :: rest =>
    match r.coordinates.head? with
    | none => findSplitRegion loc rest
    | some c =>
      let result := loc.bfs_all c (fun c0 => r.coordinates.contains c0)
      if r.coordinates.any (fun c0 => ¬ result.contains c0) then some r.id
      else findSplitRegion loc rest

def sameOwnerBorderAt (loc : Location) (reg : Region) : List Coord → Option (ID × ID)
  | [] => none
  | n :: rest =>
    match loc.region_at n with
    | none => sameOwnerBorderAt loc reg rest
    | some nr =>
      if reg.id ≠ nr.id ∧ reg.owner.id = nr.owner.id then
        if reg.id > nr.id then some (nr.id, reg.id) else some (reg.id, nr.id)
      else sameOwnerBorderAt loc reg rest

/-- First pair of bordering same-owner regions found by the whole-map BFS. -/
def findSameOwnerBorder (loc : Location) : List Coord → Option (ID × ID)
  | [] => none
  | c :: rest =>
    match loc.region_at c with
    | none => findSameOwnerBorder loc rest
    | some reg =>
      match sameOwnerBorderAt loc reg c.neighbors with
      | some p => some p
      | none => findSameOwnerBorder loc rest

/-- `Location::validate`.  `none` models the panic of the source on an empty
map (`map.iter().next().unwrap()`). -/
def Location.validate (loc : Location) : Option (Except LocationValidationError OkUnit) :=
  match firstDuplicateCoord ((loc.regions.map (fun kv => kv.2.coordinates)).flatten) [] with
  | some c => some (.error (.IntersectingRegions c))
  | none =>
  match findSplitRegion loc loc.regions with
  | some id => some (.error (.SplitRegions id))
  | none =>
  match loc.map.head? with
  | none => none
  | some (start, _) =>
    match findSameOwnerBorder loc (loc.bfs_all start (fun _ => true)) with
    | some (i1, i2) => some (.error (.SameOwnerBorderingRegions i1 i2))
    | none => some (.ok ⟨⟩)

/-- `Location::new`: index the regions, rejecting duplicate ids, then
validate. -/
def locationNewAux :
    List Region → List (ID × Region) → List (Coord × ID) →
    Except LocationValidationError (List (ID × Region) × List (Coord × ID))
  | [], regions, idx => .ok (regions, idx)
  | r :: rest, regions, idx =>
    if containsA regions r.id then .error (.DuplicateRegionId r.id)
    else
      locationNewAux rest (insertA regions r.id r)
        (r.coordinates.foldl (fun acc c => insertA acc c r.id) idx)

def Location.new (map : List (Coord × Tile)) (regions_vec : List Region) :
    Option (Except LocationValidationError Location) :=
  match locationNewAux regions_vec [] [] with
  | .error e => some (.error e)
  | .ok (regions, idx) =>
    let loc : Location := ⟨map, regions, idx⟩
    match Location.validate loc with
    | none => none
    | some (.error e) => some (.error e)
    | some (.ok _) => some (.ok loc)

/-! ### `add_tile_to_region` (the topology operator of `location.rs`) -/

/-- Deduplicate a list keeping the first occurrence of each element
(embedding of collecting into a `HashSet`, with a deterministic order). -/
def dedupFirst : List ID → List ID → List ID
  | [], _ => []
  | x :: rest, seen =>
    if seen.contains x then dedupFirst rest seen
    else x :: dedupFirst rest (x :: seen)

/-- `validate_and_prepare_add_tile`: checks, the old region id (`NO_ID` when
the coordinate had no previous region) and the ids of the regions to merge. -/
def Location.validate_and_prepare_add_tile (loc : Location) (c : Coord) (region_id : ID) :
    Except LocationModificationError (ID × List ID) :=
  if ¬ containsA loc.map c then .error (.CoordinateOutOfLocation c)
  else
    match lookupA loc.regions region_id with
    | none => .error (.NoSuchRegion region_id)
    | some region =>
      if region.coordinates.contains c then .error (.CoordinateNotAdjacentToRegion c)
      else if ¬ c.neighbors.any (fun n => region.coordinates.contains n) then
        .error (.CoordinateNotAdjacentToRegion c)
      else
        let old_region_id := (lookupA loc.coordinate_to_region c).getD NO_ID
        let merge_ids :=
          dedupFirst
            (((c.neighbors.filterMap (fun n => loc.region_at n)).filter
                (fun r => region_id ≠ r.id ∧ region.owner.id = r.owner.id)).map
              (fun r => r.id)) []
        .ok (old_region_id, merge_ids)

/-- `add_coordinate_to_region`; `none` models the source panic when the
region id was not verified. -/
def Location.add_coordinate_to_region (loc : Location) (region_id : ID) (c : Coord) :
    Option Location :=
  match lookupA loc.regions region_id with
  | none => none
  | some r =>
    some { loc with
      regions := insertA loc.regions region_id (r.insertCoord c),
      coordinate_to_region := insertA loc.coordinate_to_region c region_id }

/-- `remove_coordinate_from_region`; `none` models the source panic. -/
def Location.remove_coordinate_from_region (loc : Location) (region_id : ID) (c : Coord) :
    Option Location :=
  match lookupA loc.regions region_id with
  | none => none
  | some r =>
    some { loc with
      regions := insertA loc.regions region_id (r.removeCoord c),
      coordinate_to_region := removeA loc.coordinate_to_region c }

/-- `maybe_remove_region`: delete the region when it became empty. -/
def Location.maybe_remove_region (loc : Location) (region_id : ID) :
    Option (Option RegionTransformation × Location) :=
  match lookupA loc.regions region_id with
  | none => none
  | some r =>
    if r.coordinates.isEmpty then
      some (some (.Delete region_id), { loc with regions := removeA loc.regions region_id })
    else some (none, loc)

/-- `region_part_to_remove`: the BFS component of the region's first
coordinate, when it does not cover the whole region. -/
def Location.region_part_to_remove (loc : Location) (region_id : ID) :
    Option (Option (List Coord)) :=
  match lookupA loc.regions region_id with
  | none => none
  | some region =>
    match region.coordinates.head? with
    | none => none
    | some start =>
      let coords := loc.bfs_all start (fun c =>
        (lookupA loc.coordinate_to_region c).isSome ∧
          (lookupA loc.coordinate_to_region c).getD NO_ID = region_id)
      if region.coordinates.all (fun c => coords.contains c) ∧
          coords.all (fun c => region.coordinates.contains c) then
        some none
      else some (some coords)

def splitMoveCoords (loc : Location) (region_id new_id : ID) :
    List Coord → Option Location
  | [] => some loc
  | c :: rest =>
    match loc.remove_coordinate_from_region region_id c with
    | none => none
    | some loc1 =>
      splitMoveCoords
        { loc1 with coordinate_to_region := insertA loc1.coordinate_to_region c new_id }
        region_id new_id rest

/-- The `while let` loop of `maybe_split_region`.  Each pass peels off one
disconnected component, which strictly shrinks the region, so the region
size is sufficient fuel; `none` on exhaustion models the divergence the
source exhibits on inconsistent data, and the empty-component case models
the `Region::new` panic on empty coordinates. -/
def splitLoop (owner_id region_id : ID) :
    Nat → Location → IdProducer → List ID → Option (List ID × Location × IdProducer)
  | 0, _, _, _ => none
  | fuel + 1, loc, idp, results =>
    match loc.region_part_to_remove region_id with
    | none => none
    | some none => some (results, loc, idp)
    | some (some coords) =>
      if coords.isEmpty then none
      else
        let (new_id, idp') := idp.next
        match splitMoveCoords loc region_id new_id coords with
        | none => none
        | some loc1 =>
          let loc2 := { loc1 with
            regions := insertA loc1.regions new_id ⟨new_id, ⟨owner_id⟩, coords⟩ }
          splitLoop owner_id region_id fuel loc2 idp' (results ++ [new_id])

/-- `maybe_split_region`: split the region into its connected components. -/
def Location.maybe_split_region (loc : Location) (region_id : ID) (idp : IdProducer) :
    Option (Option RegionTransformation × Location × IdProducer) :=
  if ¬ containsA loc.regions region_id then some (none, loc, idp)
  else
    match lookupA loc.regions region_id with
    | none => none
    | some region =>
      match splitLoop region.owner.id region_id (region.coordinates.length + 1)
          loc idp [region_id] with
      | none => none
      | some (results, loc1, idp') =>
        if results.length ≤ 1 then some (none, loc1, idp')
        else some (some (.Split region_id results), loc1, idp')

def mergeOneRegion (dst_id : ID) : Location → List Coord → Option Location
  | loc, [] => some loc
  | loc, c :: rest =>
    match loc.add_coordinate_to_region dst_id c with
    | none => none
    | some loc1 => mergeOneRegion dst_id loc1 rest

/-- `merge_regions` of `location.rs`: absorb each source region into the
destination. -/
def Location.merge_regions_loc (loc : Location) (src_ids : List ID) (dst_id : ID) :
    Option Location :=
  match src_ids with
  | [] => some loc
  | src :: rest =>
    match lookupA loc.regions src with
    | none => none
    | some region =>
      match mergeOneRegion dst_id { loc with regions := removeA loc.regions src }
          region.coordinates with
      | none => none
      | some loc1 => loc1.merge_regions_loc rest dst_id

/-- `Location::add_tile_to_region`.  An error is returned only by the
initial validation, before any mutation; `none` models the panics
(including the final `validate(...).expect(...)`). -/
def Location.add_tile_to_region (loc : Location) (c : Coord) (region_id : ID)
    (idp : IdProducer) :
    Option (Except LocationModificationError
      (List RegionTransformation × Location × IdProducer)) :=
  match loc.validate_and_prepare_add_tile c region_id with
  | .error e => some (.error e)
  | .ok (old_region_id, merge_ids) =>
    let step1 : Option (List RegionTransformation × Location × IdProducer) :=
      if old_region_id ≠ NO_ID then
        match loc.remove_coordinate_from_region old_region_id c with
        | none => none
        | some loc1 =>
          match loc1.maybe_remove_region old_region_id with
          | none => none
          | some (act1, loc2) =>
            match loc2.maybe_split_region old_region_id idp with
            | none => none
            | some (act2, loc3, idp') =>
              some ((act1.toList ++ act2.toList), loc3, idp')
      else some ([], loc, idp)
    match step1 with
    | none => none
    | some (actions, loc3, idp') =>
      match loc3.add_coordinate_to_region region_id c with
      | none => none
      | some loc4 =>
        let actions := actions ++ merge_ids.map (fun id => .Merge id region_id)
        match loc4.merge_regions_loc merge_ids region_id with
        | none => none
        | some loc5 =>
          match Location.validate loc5 with
          | some (.ok _) => some (.ok (actions, loc5, idp'))
          | _ => none

/-! ## `consts.rs`: the static unit catalog -/

/-- `UnitDescription` with the fields of the `consts.rs` variant.  The
`upgrades_to` reference to the next tier's static description is embedded as
the next tier's `UnitType` key (the descriptions are total over the enum). -/
structure UnitDescription where
  name : UnitType
  is_replaceable : Bool
  is_purchasable : Bool
  purchase_cost : Int
  turn_cost : Int
  max_moves : Nat
  defence : Nat
  attack : Nat
  upgrade_levels : Nat
  upgrades_to : Option UnitType
  deriving DecidableEq

def MIN_CONTROLLED_REGION_SIZE : Nat := 2

def EMPTY_TILE_DEFENCE : Nat := 0

def EMPTY_TILE_INCOME : Int := 1

def CONTROLLED_REGION_STARTING_MONEY : Int := 10

def MIN_LOCATION_LAND_COVERAGE_PCT : Nat := 50

def STANDARD_MOVES_NUM : Nat := 4

def GRAVE : UnitDescription :=
  ⟨.Grave, true, false, 0, 0, 0, 0, 0, 0, none⟩

def PINE_TREE : UnitDescription :=
  ⟨.PineTree, true, false, 0, 1, 0, 0, 0, 0, none⟩

def PALM_TREE : UnitDescription :=
  ⟨.PalmTree, true, false, 0, 1, 0, 0, 0, 0, none⟩

def VILLAGE : UnitDescription :=
  ⟨.Village, false, false, 0, 0, 0, 1, 0, 0, none⟩

def TOWER : UnitDescription :=
  ⟨.Tower, false, true, 15, 0, 0, 2, 0, 0, none⟩

def GREAT_KNIGHT : UnitDescription :=
  ⟨.GreatKnight, false, true, 40, 54, STANDARD_MOVES_NUM, 3, 4, 4, none⟩

def KNIGHT : UnitDescription :=
  ⟨.Knight, false, true, 30, 18, STANDARD_MOVES_NUM, 3, 3, 3, some .GreatKnight⟩

def SOLDIER : UnitDescription :=
  ⟨.Soldier, false, true, 20, 6, STANDARD_MOVES_NUM, 2, 2, 2, some .Knight⟩

def MILITIA : UnitDescription :=
  ⟨.Militia, false, true, 10, 2, STANDARD_MOVES_NUM, 1, 1, 1, some .Soldier⟩

/-! ## The unit catalog module (`unit.rs`)

The baseline `unit.rs` (defining `UnitInfo`, `description`, `can_defeat`,
`can_step_on` and `merge_result` over the `consts.rs` table) is absent from
`src/`; only an earlier evolution of the file is present.  These definitions
are modelled from the spec (sections 3 and 4.2), with all numeric data taken
from the `consts.rs` that is present. -/

/-- Modelled from the spec: `description(unit_type)` is a total lookup with
one static `consts.rs` entry per enum variant (spec section 4.2). -/
def description : UnitType → UnitDescription
  | .Grave => GRAVE
  | .PineTree => PINE_TREE
  | .PalmTree => PALM_TREE
  | .Village => VILLAGE
  | .Tower => TOWER
  | .GreatKnight => GREAT_KNIGHT
  | .Knight => KNIGHT
  | .Soldier => SOLDIER
  | .Militia => MILITIA

/-- Modelled from the spec: the "unownable" flag of graves and trees (spec
section 3); in the `consts.rs` variant this is the `is_replaceable` flag
(true exactly for `Grave`, `PineTree` and `PalmTree`). -/
def UnitDescription.is_unownable (d : UnitDescription) : Bool := d.is_replaceable

/-- Modelled from the spec: `can_defeat(attacker, defender)` is
`attack(attacker) > defence(defender)`, strict (spec section 4.2). -/
def can_defeat (attacker defender : UnitType) : Bool :=
  (description attacker).attack > (description defender).defence

/-- Modelled from the spec: `can_step_on` only checks that the tile surface
is land (spec section 4.2). -/
def can_step_on (_t : UnitType) (tile : Tile) : Bool :=
  tile.surface.is_land

/-- Walk `n` steps along the upgrade chain starting from `t`. -/
def walkChain : UnitType → Nat → Option UnitType
  | t, 0 => some t
  | t, n + 1 =>
    match (description t).upgrades_to with
    | none => none
    | some t' => walkChain t' n

/-- Modelled from the spec: `merge_result(actor, goal)` (spec section 4.2).
If the goal is unownable the actor replaces it; else if the goal has an
upgrade chain, walk the actor's `upgrade_levels` steps along it from the
goal, failing when the actor has zero levels or the walk passes the top;
else the merge is illegal. -/
def merge_result (actor goal : UnitType) : Option UnitType :=
  if (description goal).is_unownable then some actor
  else if (description actor).upgrade_levels = 0 then none
  else
    match (description goal).upgrades_to with
    | none => none
    | some _ => walkChain goal (description actor).upgrade_levels

/-- Modelled from the spec: `UnitInfo` stores the unit's static description
and its remaining moves; newly created units start with zero moves
(spec section 3). -/
structure UnitInfo where
  desc : UnitDescription
  moves_left : Nat
  deriving DecidableEq

/-- Modelled from the spec: `UnitInfo::new` creates a unit together with its
info record, with zero moves. -/
def UnitInfo.new (id : ID) (t : UnitType) : Unit × UnitInfo :=
  (⟨id, t⟩, ⟨description t, 0⟩)

/-- Modelled from the spec: `UnitInfo::from(unit)` derives an info record
for an already-placed unit, with zero moves. -/
def UnitInfo.from_unit (u : Unit) : UnitInfo := ⟨description u.unit_type, 0⟩

/-- Modelled from the spec: subtracting more moves than available is a
programmer error (a panic in the earlier `unit.rs` evolution), embedded as
`none`. -/
def UnitInfo.subtract_moves (info : UnitInfo) (amount : Nat) : Option UnitInfo :=
  if amount > info.moves_left then none
  else some { info with moves_left := info.moves_left - amount }

/-- Modelled from the spec: refill moves to the type's maximum. -/
def UnitInfo.refill_moves (info : UnitInfo) : UnitInfo :=
  { info with moves_left := info.desc.max_moves }

/-! ## `rules.rs` -/

inductive LocationRulesValidationError where
  | NoLand
  | InsufficientLand (pct : Nat)
  | UnconnectedLand
  | NotCoveredWithRegions (c : Coord)
  | InitiationError (e : LocationValidationError)
  | MisplacedUnit (c : Coord)
  | RegionContainsWater (id : ID)
  | ActiveRegionWithoutCapital (id : ID)
  | MultiplyCapitals (id : ID)
  deriving DecidableEq

/-- First land tile not covered by a region, or first region covering
water, scanning the map in order. -/
def findCoverageError : Location → List (Coord × Tile) →
    Option LocationRulesValidationError
  | _, [] => none
  | loc, (c, t) :: rest =>
    if t.surface.is_land ∧ (loc.region_at c).isNone then
      some (.NotCoveredWithRegions c)
    else if t.surface.is_water ∧ (loc.region_at c).isSome then
      some (.RegionContainsWater (((loc.region_at c).map Region.id).getD NO_ID))
    else findCoverageError loc rest

def findFirstLand : List (Coord × Tile) → Option Coord
  | [] => none
  | (c, t) :: rest => if t.surface.is_land then some c else findFirstLand rest

def findMisplacedUnit : List (Coord × Tile) → Option Coord
  | [] => none
  | (c, t) :: rest =>
    if t.unit.isSome ∧ t.surface.is_water then some c else findMisplacedUnit rest

/-- Number of `Village` units among the region's coordinates; `none` models
the `tile_at(..).unwrap()` panic on a coordinate outside the map. -/
def countCapitals (loc : Location) : List Coord → Option Nat
  | [] => some 0
  | c :: rest =>
    match loc.tile_at c with
    | none => none
    | some t =>
      match countCapitals loc rest with
      | none => none
      | some n =>
        some (if (t.unit.map Unit.unit_type) = some .Village then n + 1 else n)

def findCapitalError (loc : Location) : List (ID × Region) →
    Option (Option LocationRulesValidationError)
  | [] => some none
  | (id, region) :: rest =>
    if region.coordinates.length < MIN_CONTROLLED_REGION_SIZE then
      findCapitalError loc rest
    else
      match countCapitals loc region.coordinates with
      | none => none
      | some capitals =>
        if capitals = 0 then some (some (.ActiveRegionWithoutCapital id))
        else if capitals > 1 then some (some (.MultiplyCapitals id))
        else findCapitalError loc rest

/-- `validate_location` from `rules.rs`; `none` models the panics inherited
from `Location::validate` and `tile_at(..).unwrap()`. -/
def validate_location (loc : Location) :
    Option (Except LocationRulesValidationError OkUnit) :=
  match Location.validate loc with
  | none => none
  | some (.error e) => some (.error (.InitiationError e))
  | some (.ok _) =>
  match findCoverageError loc loc.map with
  | some e => some (.error e)
  | none =>
  match findFirstLand loc.map with
  | none => some (.error .NoLand)
  | some first_land =>
    let land := loc.bfs_all first_land (fun c =>
      ((loc.tile_at c).map (fun t => t.surface.is_land)).getD false)
    if loc.map.any (fun ct => ct.2.surface.is_land ∧ ¬ land.contains ct.1) then
      some (.error .UnconnectedLand)
    else
      let real_coverage := land.length * 100 / loc.map.length
      if MIN_LOCATION_LAND_COVERAGE_PCT > real_coverage then
        some (.error (.InsufficientLand real_coverage))
      else
        match findMisplacedUnit loc.map with
        | some c => some (.error (.MisplacedUnit c))
        | none =>
          match findCapitalError loc loc.regions with
          | none => none
          | some (some e) => some (.error e)
          | some none => some (.ok ⟨⟩)

inductive RegionsValidationError where
  | NoActiveRegions (id : ID)
  | UnlistedPlayer (id : ID)
  deriving DecidableEq

/-- The `player_is_active` table of `validate_regions`; `none` models the
`tile_at(..).unwrap()` panic. -/
def playerIsActive (loc : Location) : List (ID × Region) → List (ID × Bool) →
    Option (List (ID × Bool))
  | [], acc => some acc
  | (_, region) :: rest, acc =>
    let is_active0 := region.coordinates.length ≥ MIN_CONTROLLED_REGION_SIZE
    let unit_count :=
      (region.coordinates.filter (fun c =>
        ((loc.tile_at c).map (fun t => t.unit.isSome)).getD false)).length
    if ¬ (region.coordinates.all (fun c => (loc.tile_at c).isSome)) then none
    else
      let is_active := is_active0 ∨ unit_count > 0
      let current := (lookupA acc region.owner.id).getD false
      playerIsActive loc rest (insertA acc region.owner.id (current ∨ is_active))

def findMissingPlayer (table : List (ID × Bool)) : List Player → Option ID
  | [] => none
  | p :: rest =>
    if ¬ containsA table p.id then some p.id else findMissingPlayer table rest

def findActivityError (player_ids : List ID) : List (ID × Bool) →
    Option RegionsValidationError
  | [] => none
  | (id, is_active) :: rest =>
    if ¬ is_active ∧ player_ids.contains id then some (.NoActiveRegions id)
    else if is_active ∧ ¬ player_ids.contains id then some (.UnlistedPlayer id)
    else findActivityError player_ids rest

/-- `validate_regions` from `rules.rs`. -/
def validate_regions (loc : Location) (active_players : List Player) :
    Option (Except RegionsValidationError OkUnit) :=
  match playerIsActive loc loc.regions [] with
  | none => none
  | some table =>
    match findMissingPlayer table active_players with
    | some id => some (.error (.NoActiveRegions id))
    | none =>
      let player_ids := active_players.map Player.id
      match findActivityError player_ids table with
      | some e => some (.error e)
      | none => some (.ok ⟨⟩)

/-! ## `engine.rs` -/

inductive PlayerAction where
  | PlaceNewUnit (region_id : ID) (t : UnitType) (dst : Coord)
  | UpgradeUnit (dst : Coord)
  | MoveUnit (src dst : Coord)
  | EndTurn
  deriving DecidableEq

inductive PlayerActionError where
  | OtherPlayersTurn (id : ID)
  | LocationError (e : LocationModificationError)
  | InaccessibleLocation (c : Coord)
  | AlreadyOccupied (c : Coord)
  | CannotAttack (c : Coord)
  | NotEnoughMoney (id : ID)
  | NotEnoughMoves (hv nd : Nat)
  | NotOwned (c : Coord)
  | CannotBePlacedByPlayer (t : UnitType)
  | NoUnit (c : Coord)
  | NoUpgrade (t : UnitType)
  | GameAlreadyFinished
  deriving DecidableEq

inductive EngineValidationError where
  | LocationError (e : LocationRulesValidationError)
  | RegionsError (e : RegionsValidationError)
  | RegionWithoutInfo (id : ID)
  | UnitWithoutInfo (id : ID)
  | UnlinkedRegionInfo (id : ID)
  | UnlinkedUnitInfo (id : ID)
  deriving DecidableEq

/-- `RegionInfo`: the engine-level per-region cache; `money_balance` is the
authoritative treasury. -/
structure RegionInfo where
  money_balance : Int
  income_from_fields : Int
  maintenance_cost : Int
  deriving DecidableEq

def RegionInfo.new (money_balance : Int) : RegionInfo := ⟨money_balance, 0, 0⟩

def RegionInfo.can_afford (ri : RegionInfo) (sum : Int) : Bool :=
  ri.money_balance ≥ sum

def RegionInfo.change_balance (ri : RegionInfo) (diff : Int) : RegionInfo :=
  { ri with money_balance := ri.money_balance + diff }

def recountVals (loc : Location) : List Coord → Int × Int → Option (Int × Int)
  | [], acc => some acc
  | c :: rest, (income, maintenance) =>
    match loc.tile_at c with
    | none => none
    | some t =>
      recountVals loc rest
        (income + EMPTY_TILE_INCOME,
         maintenance +
           (match t.unit with
            | none => 0
            | some u => (description u.unit_type).turn_cost))

/-- `RegionInfo::recount`: rederive the cached income and maintenance. -/
def RegionInfo.recount (ri : RegionInfo) (region : Region) (loc : Location) :
    Option RegionInfo :=
  match recountVals loc region.coordinates (0, 0) with
  | none => none
  | some (income, maintenance) =>
    some { ri with income_from_fields := income, maintenance_cost := maintenance }

/-- `GameEngine`: the aggregate root. -/
structure GameEngine where
  players : List Player
  player_activity : List (ID × Bool)
  winner : Option ID
  current_turn : Nat
  active_player_num : Nat
  location : Location
  region_info : List (ID × RegionInfo)
  unit_info : List (ID × UnitInfo)
  id_producer : IdProducer
  deriving DecidableEq

def GameEngine.region_money (e : GameEngine) (region_id : ID) : Option Int :=
  (lookupA e.region_info region_id).map RegionInfo.money_balance

def GameEngine.active_player (e : GameEngine) : Option Player :=
  e.players.get? e.active_player_num

/-- The list of players whose activity flag is set; `none` models the
`player_activity[..]` indexing panic on a player missing from the table. -/
def activePlayersList (activity : List (ID × Bool)) : List Player → Option (List Player)
  | [] => some []
  | p :: rest =>
    match lookupA activity p.id with
    | none => none
    | some b =>
      (activePlayersList activity rest).map (fun l => if b then p :: l else l)

def scanIds (mkErr : ID → EngineValidationError) :
    List ID → List ID → Except EngineValidationError (List ID)
  | [], remaining => .ok remaining
  | id :: rest, remaining =>
    if remaining.contains id then scanIds mkErr rest (remaining.erase id)
    else .error (mkErr id)

/-- `validate_internal_consistency`: regions and region infos, and map units
and unit infos, must be in bijection. -/
def GameEngine.validate_internal_consistency (e : GameEngine) :
    Except EngineValidationError OkUnit :=
  match scanIds EngineValidationError.RegionWithoutInfo
      (keysA e.location.regions) (keysA e.region_info) with
  | .error err => .error err
  | .ok remaining =>
    match remaining.head? with
    | some id => .error (.UnlinkedRegionInfo id)
    | none =>
      let unitIds := (e.location.map.filterMap (fun ct => ct.2.unit)).map Unit.id
      match scanIds EngineValidationError.UnitWithoutInfo unitIds (keysA e.unit_info) with
      | .error err => .error err
      | .ok remaining2 =>
        match remaining2.head? with
        | some id => .error (.UnlinkedUnitInfo id)
        | none => .ok ⟨⟩

/-- `GameEngine::validate`. -/
def GameEngine.validate (e : GameEngine) :
    Option (Except EngineValidationError OkUnit) :=
  match activePlayersList e.player_activity e.players with
  | none => none
  | some actives =>
    match validate_location e.location with
    | none => none
    | some (.error err) => some (.error (.LocationError err))
    | some (.ok _) =>
      match validate_regions e.location actives with
      | none => none
      | some (.error err) => some (.error (.RegionsError err))
      | some (.ok _) =>
        match e.validate_internal_consistency with
        | .error err => some (.error err)
        | .ok _ => some (.ok ⟨⟩)

def recountAll (loc : Location) :
    List (ID × Region) → List (ID × RegionInfo) → Option (List (ID × RegionInfo))
  | [], infos => some infos
  | (id, region) :: rest, infos =>
    match lookupA infos id with
    | none => none
    | some info =>
      match info.recount region loc with
      | none => none
      | some info' => recountAll loc rest (insertA infos id info')

/-- `recount_region_info`: refresh every region's cached income/maintenance. -/
def GameEngine.recount_region_info (e : GameEngine) : Option GameEngine :=
  (recountAll e.location e.location.regions e.region_info).map
    (fun infos => { e with region_info := infos })

/-- `modify_money`; `none` models the panic on a missing region. -/
def GameEngine.modify_money (e : GameEngine) (region_id : ID) (amount : Int) :
    Option GameEngine :=
  match lookupA e.region_info region_id with
  | none => none
  | some ri =>
    some { e with region_info := insertA e.region_info region_id (ri.change_balance amount) }

/-- The engine-level `region_at`, turning a missing region into
`InaccessibleLocation`. -/
def GameEngine.engine_region_at (e : GameEngine) (c : Coord) :
    Except PlayerActionError Region :=
  match e.location.region_at c with
  | none => .error (.InaccessibleLocation c)
  | some r => .ok r

/-- `create_and_place_unit`.  The info record is inserted and the id
allocated before the tile placement, exactly as in the source, so the
engine returned alongside an error carries those partial mutations. -/
def GameEngine.create_and_place_unit (e : GameEngine) (t : UnitType) (c : Coord) :
    Except LocationModificationError ID × GameEngine :=
  let (uid, idp') := e.id_producer.next_id
  let (u, info) := UnitInfo.new uid t
  let e1 := { e with id_producer := idp', unit_info := insertA e.unit_info u.id info }
  match e1.location.place_unit u c with
  | .error err => (.error err, e1)
  | .ok loc => (.ok u.id, { e1 with location := loc })

/-- `maybe_remove_unit`; the outer `none` models the two `unwrap` panics. -/
def GameEngine.maybe_remove_unit (e : GameEngine) (c : Coord) :
    Option (Option (Unit × UnitInfo) × GameEngine) :=
  match e.location.remove_unit c with
  | .error _ => none
  | .ok (none, loc) => some (none, { e with location := loc })
  | .ok (some u, loc) =>
    match lookupA e.unit_info u.id with
    | none => none
    | some info =>
      some (some (u, info),
        { e with location := loc, unit_info := removeA e.unit_info u.id })

def removeExtraCapitals : GameEngine → List Coord → Option GameEngine
  | e, [] => some e
  | e, c :: rest =>
    match e.maybe_remove_unit c with
    | none => none
    | some (none, _) => none
    | some (some _, e1) => removeExtraCapitals e1 rest

/-- `fix_capital` (engine.rs lines 539-608) with the deterministic
coordinate order of this embedding standing in for the source's unspecified
`HashSet` iteration order. -/
def GameEngine.fix_capital (e : GameEngine) (region_id : ID) : Option GameEngine :=
  match lookupA e.location.regions region_id with
  | none => none
  | some region =>
    if ¬ region.coordinates.all (fun c => (e.location.tile_at c).isSome) then none
    else
      let capitals := region.coordinates.filter (fun c =>
        ((e.location.tile_at c).bind Tile.unit).map Unit.unit_type = some .Village)
      let size := region.coordinates.length
      if size = 1 then
        if capitals.isEmpty then some e
        else
          match region.coordinates.head? with
          | none => none
          | some c =>
            match e.maybe_remove_unit c with
            | none => none
            | some (none, _) => none
            | some (some _, e1) => some e1
      else if capitals.isEmpty then
        match
          (region.coordinates.find? (fun c =>
            ((e.location.tile_at c).bind Tile.unit).isNone)).orElse
            (fun _ => region.coordinates.head?) with
        | none => none
        | some coord =>
          match e.maybe_remove_unit coord with
          | none => none
          | some (_, e1) =>
            match e1.create_and_place_unit .Village coord with
            | (.error _, _) => none
            | (.ok _, e2) => some e2
      else if capitals.length > 1 then
        removeExtraCapitals e capitals.tail
      else some e

/-- `merge_regions` (engine.rs): fix the capital of the surviving region and
combine the two info records. -/
def GameEngine.merge_regions (e : GameEngine) (from_ into : ID) : Option GameEngine :=
  match e.fix_capital into with
  | none => none
  | some e1 =>
    match lookupA e1.region_info from_ with
    | none => none
    | some src =>
      let infos := removeA e1.region_info from_
      match lookupA infos into with
      | none => none
      | some dst =>
        some { e1 with region_info :=
          (insertA infos into
            ⟨dst.money_balance + src.money_balance,
             dst.income_from_fields + src.income_from_fields,
             dst.maintenance_cost + src.maintenance_cost⟩) }

def splitCollect : GameEngine → List ID → List (ID × RegionInfo) → List ID →
    Option (GameEngine × List (ID × RegionInfo) × List ID)
  | e, [], insert_list, owners => some (e, insert_list, owners)
  | e, region_id :: rest, insert_list, owners =>
    match e.fix_capital region_id with
    | none => none
    | some e1 =>
      match lookupA e1.location.regions region_id with
      | none => none
      | some region =>
        if region.coordinates.length < MIN_CONTROLLED_REGION_SIZE then
          splitCollect e1 rest (insert_list ++ [(region_id, RegionInfo.new 0)]) owners
        else splitCollect e1 rest insert_list (owners ++ [region_id])

/-- The distribution loop of `split_region`: while the remainder is
positive, hand out one extra unit of money. -/
def distributeLoop (part : Int) :
    List ID → Int → List (ID × RegionInfo) → List (ID × RegionInfo)
  | [], _, infos => infos
  | id :: rest_ids, rest, infos =>
    let info_part := if rest > 0 then part + 1 else part
    distributeLoop part rest_ids (rest - 1) (insertA infos id (RegionInfo.new info_part))

/-- `split_region` (engine.rs): fix capitals of the parts, then distribute
the old region's money over the parts of at least the minimum controlled
size (`i32` division truncates towards zero: `Int.tdiv`). -/
def GameEngine.split_region (e : GameEngine) (from_ : ID) (into : List ID) :
    Option GameEngine :=
  match lookupA e.region_info from_ with
  | none => none
  | some src =>
    let e0 := { e with region_info := removeA e.region_info from_ }
    match splitCollect e0 into [] [] with
    | none => none
    | some (e1, insert_list, owners) =>
      let e2 :=
        if owners.isEmpty then e1
        else
          let sum := src.money_balance
          let part := Int.tdiv sum (owners.length : Int)
          let rest := sum - (owners.length : Int) * part
          { e1 with region_info := distributeLoop part owners rest e1.region_info }
      some { e2 with region_info :=
        (insert_list.foldl (fun infos p => insertA infos p.1 p.2) e2.region_info) }

def processTransformations : GameEngine → List RegionTransformation → Option GameEngine
  | e, [] => some e
  | e, .Delete id :: rest =>
    processTransformations { e with region_info := removeA e.region_info id } rest
  | e, .Merge from_ into :: rest =>
    match e.merge_regions from_ into with
    | none => none
    | some e1 => processTransformations e1 rest
  | e, .Split from_ into :: rest =>
    match e.split_region from_ into with
    | none => none
    | some e1 => processTransformations e1 rest

/-- The engine-level `add_tile_to_region`: run the location-level operator,
then replay the reported transformations on the engine caches (or fix the
old region's capital when the topology did not change). -/
def GameEngine.add_tile_to_region (e : GameEngine) (c : Coord) (region_id : ID) :
    Option (Except PlayerActionError GameEngine) :=
  match e.location.region_at c with
  | none => none
  | some oldRegion =>
    match e.location.add_tile_to_region c region_id e.id_producer with
    | none => none
    | some (.error err) => some (.error (.LocationError err))
    | some (.ok (res, loc', idp')) =>
      let e1 := { e with location := loc', id_producer := idp' }
      if res.isEmpty then
        match e1.fix_capital oldRegion.id with
        | none => none
        | some e2 => some (.ok e2)
      else
        match processTransformations e1 res with
        | none => none
        | some e2 => some (.ok e2)

/-- Maximum defence among occupied neighbour tiles belonging to the
destination region (`EMPTY_TILE_DEFENCE` if there are none). -/
def maxNeighbourDefence (loc : Location) (dst_region_id : ID) : List Coord → Nat
  | [] => EMPTY_TILE_DEFENCE
  | n :: rest =>
    let restMax := maxNeighbourDefence loc dst_region_id rest
    if ((loc.region_at n).map Region.id) = some dst_region_id then
      match (loc.tile_at n).bind Tile.unit with
      | some u => max ((description u.unit_type).defence) restMax
      | none => restMax
    else restMax

/-- `unit_can_step_on_coord` (engine.rs lines 620-667).  Where the source
panics on lookups (`region_at(..).unwrap()`, `regions()[..]`) this returns
`false`; those branches are unreachable for the validated locations the
engine runs on, where every land tile belongs to a region and callers pass
an existing region id. -/
def GameEngine.unit_can_step_on_coord (e : GameEngine) (unit_type : UnitType)
    (c : Coord) (original_region_id : ID) (is_last_step : Bool) : Bool :=
  match e.location.tile_at c with
  | none => false
  | some tile =>
    if ¬ can_step_on unit_type tile then false
    else
      match e.location.region_at c with
      | none => false
      | some dst_region =>
        if dst_region.id = original_region_id then
          !is_last_step || tile.unit.isNone ||
            (match tile.unit with
             | some u => (merge_result unit_type u.unit_type).isSome
             | none => false)
        else if ¬ is_last_step then false
        else
          match lookupA e.location.regions original_region_id with
          | none => false
          | some original_region =>
            if ¬ c.neighbors.any (fun n => original_region.coordinates.contains n) then
              false
            else
              let unit_defence :=
                (tile.unit.map (fun u => (description u.unit_type).defence)).getD
                  EMPTY_TILE_DEFENCE
              let max_defence := maxNeighbourDefence e.location dst_region.id c.neighbors
              max max_defence unit_defence < (description unit_type).attack

/-- `prepare_placing_unit`: read-only checks for placing/moving a unit onto
`dst`, returning (relocation needed, occupant to remove, merge upgrade). -/
def GameEngine.prepare_placing_unit (e : GameEngine) (player_id : ID)
    (originating_region_id : ID) (unit_type : UnitType) (dst : Coord) :
    Option (Except PlayerActionError (Bool × Option ID × Option UnitType)) :=
  if ¬ e.unit_can_step_on_coord unit_type dst originating_region_id true then
    some (.error (.InaccessibleLocation dst))
  else
    match e.engine_region_at dst with
    | .error err => some (.error err)
    | .ok dst_region =>
      let need_relocation := dst_region.id ≠ originating_region_id
      match e.location.tile_at dst with
      | none => none
      | some tile =>
        match tile.unit with
        | some current_unit =>
          if dst_region.owner.id = player_id then
            match merge_result unit_type current_unit.unit_type with
            | none => some (.error (.AlreadyOccupied dst))
            | some mr =>
              let upgrade_to := if mr ≠ unit_type then some mr else none
              some (.ok (need_relocation, some current_unit.id, upgrade_to))
          else if ¬ can_defeat unit_type current_unit.unit_type then
            some (.error (.CannotAttack dst))
          else some (.ok (need_relocation, some current_unit.id, none))
        | none => some (.ok (need_relocation, none, none))

/-- `prepare_buying_unit`: purchasability, placement checks, no
merge-by-purchase, affordability. -/
def GameEngine.prepare_buying_unit (e : GameEngine) (player_id : ID)
    (originating_region_id : ID) (unit_type : UnitType) (dst : Coord) :
    Option (Except PlayerActionError (Bool × Option ID)) :=
  if ¬ (description unit_type).is_purchasable then
    some (.error (.CannotBePlacedByPlayer unit_type))
  else
    match e.prepare_placing_unit player_id originating_region_id unit_type dst with
    | none => none
    | some (.error err) => some (.error err)
    | some (.ok (need_relocation, old_unit_to_remove, upgrade_to)) =>
      if upgrade_to.isSome then some (.error (.InaccessibleLocation dst))
      else
        match lookupA e.region_info originating_region_id with
        | none => none
        | some region_info =>
          if ¬ region_info.can_afford (description unit_type).purchase_cost then
            some (.error (.NotEnoughMoney originating_region_id))
          else some (.ok (need_relocation, old_unit_to_remove))

/-- `place_new_unit`: the `PlaceNewUnit` handler.  An error result carries
the engine state at the moment of the early return. -/
def GameEngine.place_new_unit (e : GameEngine) (player_id : ID)
    (originating_region_id : ID) (unit_type : UnitType) (dst : Coord) :
    Option (Option PlayerActionError × GameEngine) :=
  match e.prepare_buying_unit player_id originating_region_id unit_type dst with
  | none => none
  | some (.error err) => some (some err, e)
  | some (.ok (need_relocation, old_unit_to_remove)) =>
    match e.create_and_place_unit unit_type dst with
    | (.error lerr, e1) => some (some (.LocationError lerr), e1)
    | (.ok _, e1) =>
      let afterRel : Option (Option PlayerActionError × GameEngine) :=
        if need_relocation then
          match e1.add_tile_to_region dst originating_region_id with
          | none => none
          | some (.error err) => some (some err, e1)
          | some (.ok e2) => some (none, e2)
        else some (none, e1)
      match afterRel with
      | none => none
      | some (some err, e2) => some (some err, e2)
      | some (none, e2) =>
        let e3 :=
          match old_unit_to_remove with
          | some old_id => { e2 with unit_info := removeA e2.unit_info old_id }
          | none => e2
        match e3.modify_money originating_region_id
            (0 - (description unit_type).purchase_cost) with
        | none => none
        | some e4 => some (none, e4)

/-- The data computed by `prepare_moving_unit`. -/
structure MovePrep where
  unit_id : ID
  moves_num : Nat
  region_id : ID
  need_relocation : Bool
  old_unit_id_to_remove : Option ID
  upgrade_to : Option UnitType
  deriving DecidableEq

/-- `prepare_moving_unit`: read-only legality checks and movement-cost
computation for `MoveUnit`. -/
def GameEngine.prepare_moving_unit (e : GameEngine) (player_id : ID)
    (src dst : Coord) : Option (Except PlayerActionError MovePrep) :=
  match e.location.tile_at src with
  | none => some (.error (.InaccessibleLocation src))
  | some tile =>
    match e.engine_region_at src with
    | .error err => some (.error err)
    | .ok region =>
      if region.owner.id ≠ player_id then some (.error (.NotOwned src))
      else
        match tile.unit with
        | none => some (.error (.NoUnit dst))
        | some unit =>
          match e.prepare_placing_unit player_id region.id unit.unit_type dst with
          | none => none
          | some (.error err) => some (.error err)
          | some (.ok (need_relocation, old_unit_id_to_remove, upgrade_to)) =>
            let distance := e.location.bfs_distance src dst (fun c =>
              e.unit_can_step_on_coord unit.unit_type c region.id (c = dst))
            match lookupA e.unit_info unit.id with
            | none => none
            | some unit_info =>
              match distance with
              | none => some (.error (.InaccessibleLocation dst))
              | some d =>
                if unit_info.moves_left < d then
                  some (.error (.NotEnoughMoves unit_info.moves_left d))
                else
                  let moves_to_subtract :=
                    if need_relocation ∨ old_unit_id_to_remove.isSome then
                      unit_info.moves_left
                    else d
                  some (.ok ⟨unit.id, moves_to_subtract, region.id,
                    need_relocation, old_unit_id_to_remove, upgrade_to⟩)

/-- `move_unit`: the `MoveUnit` handler. -/
def GameEngine.move_unit (e : GameEngine) (player_id : ID) (src dst : Coord) :
    Option (Option PlayerActionError × GameEngine) :=
  match e.prepare_moving_unit player_id src dst with
  | none => none
  | some (.error err) => some (some err, e)
  | some (.ok prep) =>
    match e.location.move_unit src dst with
    | .error lerr => some (some (.LocationError lerr), e)
    | .ok loc1 =>
      let e1 := { e with location := loc1 }
      let afterRel : Option (Option PlayerActionError × GameEngine) :=
        if prep.need_relocation then
          match e1.add_tile_to_region dst prep.region_id with
          | none => none
          | some (.error err) => some (some err, e1)
          | some (.ok e2) => some (none, e2)
        else some (none, e1)
      match afterRel with
      | none => none
      | some (some err, e2) => some (some err, e2)
      | some (none, e2) =>
        match lookupA e2.unit_info prep.unit_id with
        | none => none
        | some info =>
          match info.subtract_moves prep.moves_num with
          | none => none
          | some info' =>
            let e3 := { e2 with unit_info := insertA e2.unit_info prep.unit_id info' }
            let old_unit_info :=
              match prep.old_unit_id_to_remove with
              | some old_id => lookupA e3.unit_info old_id
              | none => none
            let e4 :=
              match prep.old_unit_id_to_remove with
              | some old_id => { e3 with unit_info := removeA e3.unit_info old_id }
              | none => e3
            match prep.upgrade_to with
            | none => some (none, e4)
            | some t =>
              match e4.maybe_remove_unit dst with
              | none => none
              | some (none, _) => none
              | some (some _, e5) =>
                match e5.create_and_place_unit t dst with
                | (.error _, _) => none
                | (.ok new_id, e6) =>
                  match old_unit_info with
                  | none => none
                  | some old_info =>
                    if old_info.moves_left = old_info.desc.max_moves then
                      match lookupA e6.unit_info new_id with
                      | none => none
                      | some ni =>
                        some (none, { e6 with
                          unit_info := insertA e6.unit_info new_id ni.refill_moves })
                    else some (none, e6)

/-- `prepare_upgrading_unit`. -/
def GameEngine.prepare_upgrading_unit (e : GameEngine) (player_id : ID)
    (dst : Coord) : Option (Except PlayerActionError (ID × Int × UnitType)) :=
  match e.engine_region_at dst with
  | .error err => some (.error err)
  | .ok region =>
    if region.owner.id ≠ player_id then some (.error (.NotOwned dst))
    else
      match e.location.tile_at dst with
      | none => none
      | some tile =>
        match tile.unit with
        | none => some (.error (.NoUnit dst))
        | some old_unit =>
          let old_desc := description old_unit.unit_type
          match old_desc.upgrades_to with
          | none => some (.error (.NoUpgrade old_desc.name))
          | some new_type =>
            let new_desc := description new_type
            let sum := new_desc.purchase_cost - old_desc.purchase_cost
            match lookupA e.region_info region.id with
            | none => none
            | some region_info =>
              if ¬ region_info.can_afford sum then
                some (.error (.NotEnoughMoney region.id))
              else some (.ok (region.id, sum, new_desc.name))

/-- `upgrade_unit`: the `UpgradeUnit` handler. -/
def GameEngine.upgrade_unit (e : GameEngine) (player_id : ID) (dst : Coord) :
    Option (Option PlayerActionError × GameEngine) :=
  match e.prepare_upgrading_unit player_id dst with
  | none => none
  | some (.error err) => some (some err, e)
  | some (.ok (region_id, sum, upgraded_unit_type)) =>
    match e.maybe_remove_unit dst with
    | none => none
    | some (none, _) => none
    | some (some _, e1) =>
      match e1.create_and_place_unit upgraded_unit_type dst with
      | (.error lerr, e2) => some (some (.LocationError lerr), e2)
      | (.ok _, e2) =>
        match e2.modify_money region_id (0 - sum) with
        | none => none
        | some e3 => some (none, e3)

/-- `check_for_winner`: the last active player standing wins. -/
def GameEngine.check_for_winner (e : GameEngine) : Option GameEngine :=
  match activePlayersList e.player_activity e.players with
  | none => none
  | some actives =>
    if actives.length = 1 then
      match actives.head? with
      | none => none
      | some p => some { e with winner := some p.id }
    else some e

/-- `validate_action`: turn ownership first, then the game-over check. -/
def GameEngine.validate_action (e : GameEngine) (player_id : ID) :
    Option (Option PlayerActionError) :=
  match e.active_player with
  | none => none
  | some p =>
    if player_id ≠ p.id then some (some (.OtherPlayersTurn p.id))
    else if e.winner.isSome then some (some .GameAlreadyFinished)
    else some none

/-- The count of qualifying ("active") regions per owner. -/
def countActiveRegions (loc : Location) :
    List (ID × Region) → List (ID × Nat) → Option (List (ID × Nat))
  | [], acc => some acc
  | (_, region) :: rest, acc =>
    let bump := insertA acc region.owner.id ((lookupA acc region.owner.id).getD 0 + 1)
    if region.coordinates.length < MIN_CONTROLLED_REGION_SIZE then
      match region.coordinates.head? with
      | none => none
      | some c =>
        match loc.tile_at c with
        | none => none
        | some t =>
          match t.unit with
          | none => countActiveRegions loc rest acc
          | some u =>
            if (description u.unit_type).max_moves = 0 then
              countActiveRegions loc rest acc
            else countActiveRegions loc rest bump
    else countActiveRegions loc rest bump

def zeroInactiveMoneys (set_inactive : List ID) :
    List (ID × Region) → List (ID × RegionInfo) → Option (List (ID × RegionInfo))
  | [], infos => some infos
  | (id, region) :: rest, infos =>
    if set_inactive.contains region.owner.id then
      match lookupA infos id with
      | none => none
      | some info =>
        zeroInactiveMoneys set_inactive rest
          (insertA infos id { info with money_balance := 0 })
    else zeroInactiveMoneys set_inactive rest infos

/-- `check_for_active_players`: deactivate players with no qualifying
regions and zero the treasuries of their regions. -/
def GameEngine.check_for_active_players (e : GameEngine) : Option GameEngine :=
  match countActiveRegions e.location e.location.regions [] with
  | none => none
  | some counts =>
    let set_inactive :=
      (((e.player_activity.filter (fun p => p.2)).filter
        (fun p => (lookupA counts p.1).getD 0 = 0)).map Prod.fst)
    if set_inactive.isEmpty then some e
    else
      let activity := set_inactive.foldl (fun acc id => insertA acc id false)
        e.player_activity
      match zeroInactiveMoneys set_inactive e.location.regions e.region_info with
      | none => none
      | some infos =>
        some { e with player_activity := activity, region_info := infos }

/-- The rewind loop of `rewind_to_active_player`; the index grows by one per
pass and the loop guard bounds it by the player count, so that count is
sufficient fuel. -/
def rewindNum (players : List Player) (activity : List (ID × Bool)) :
    Nat → Nat → Option Nat
  | 0, num => some num
  | fuel + 1, num =>
    match players.get? num with
    | none => some num
    | some p =>
      match lookupA activity p.id with
      | none => none
      | some b =>
        if b then some num else rewindNum players activity fuel (num + 1)

def GameEngine.rewind_to_active_player (e : GameEngine) : Option GameEngine :=
  (rewindNum e.players e.player_activity (e.players.length + 1)
      e.active_player_num).map
    (fun n => { e with active_player_num := n })

/-- `apply_income`: credit `income - maintenance` to every region except
small regions whose single tile is unoccupied. -/
def applyIncomeLoop (loc : Location) :
    List (ID × Region) → List (ID × RegionInfo) → Option (List (ID × RegionInfo))
  | [], infos => some infos
  | (id, region) :: rest, infos =>
    if region.coordinates.length < MIN_CONTROLLED_REGION_SIZE then
      match region.coordinates.head? with
      | none => none
      | some c =>
        match loc.tile_at c with
        | none => none
        | some t =>
          if t.unit.isNone then applyIncomeLoop loc rest infos
          else
            match lookupA infos id with
            | none => none
            | some info =>
              applyIncomeLoop loc rest (insertA infos id
                (info.change_balance (info.income_from_fields - info.maintenance_cost)))
    else
      match lookupA infos id with
      | none => none
      | some info =>
        applyIncomeLoop loc rest (insertA infos id
          (info.change_balance (info.income_from_fields - info.maintenance_cost)))

def GameEngine.apply_income (e : GameEngine) : Option GameEngine :=
  (applyIncomeLoop e.location e.location.regions e.region_info).map
    (fun infos => { e with region_info := infos })

/-- `refill_moves` (engine level): refill every unit's moves. -/
def GameEngine.refill_moves (e : GameEngine) : GameEngine :=
  { e with unit_info := e.unit_info.map (fun p => (p.1, p.2.refill_moves)) }

def replaceGravesLoop : GameEngine → List Coord → Option GameEngine
  | e, [] => some e
  | e, c :: rest =>
    match e.maybe_remove_unit c with
    | none => none
    | some (none, _) => none
    | some (some _, e1) =>
      match e1.create_and_place_unit .PineTree c with
      | (.error _, _) => none
      | (.ok _, e2) => replaceGravesLoop e2 rest

/-- `replace_graves_with_pine_trees`. -/
def GameEngine.replace_graves_with_pine_trees (e : GameEngine) : Option GameEngine :=
  replaceGravesLoop e
    ((e.location.map.filter
      (fun ct => (ct.2.unit.map Unit.unit_type) = some .Grave)).map Prod.fst)

def collectKillCoords (loc : Location) : List Coord → Option (List Coord)
  | [] => some []
  | c :: rest =>
    match loc.tile_at c with
    | none => none
    | some t =>
      match collectKillCoords loc rest with
      | none => none
      | some l =>
        match t.unit with
        | none => some l
        | some u =>
          let d := description u.unit_type
          if ¬ d.is_unownable ∧ d.turn_cost > 0 then some (c :: l) else some l

def killLoop : GameEngine → List Coord → Option GameEngine
  | e, [] => some e
  | e, c :: rest =>
    match e.maybe_remove_unit c with
    | none => none
    | some (none, _) => none
    | some (some _, e1) =>
      match e1.create_and_place_unit .Grave c with
      | (.error _, _) => none
      | (.ok _, e2) => killLoop e2 rest

/-- `kill_starving_units`: replace upkeep-costing ownable units of
negative-balance regions with graves. -/
def GameEngine.kill_starving_units (e : GameEngine) : Option GameEngine :=
  let regions_to_check :=
    (e.region_info.filter (fun p => p.2.money_balance < 0)).map Prod.fst
  let coords :=
    ((regions_to_check.filterMap (fun id => lookupA e.location.regions id)).map
      Region.coordinates).flatten
  match collectKillCoords e.location coords with
  | none => none
  | some kill_coordinates => killLoop e kill_coordinates

/-- `tree_for`: which tree (if any) grows on the coordinate this turn. -/
def GameEngine.tree_for (e : GameEngine) (c : Coord) : Option UnitType :=
  if e.current_turn % 2 ≠ 0 ∧ e.current_turn % 5 = 0 then none
  else
    let counts := c.neighbors.foldl
      (fun (acc : Nat × Nat) n =>
        let tile := e.location.tile_at n
        let is_water := tile.isNone ∨ ((tile.map (fun t => t.surface.is_water)).getD false)
        let has_tree :=
          ((tile.bind Tile.unit).map Unit.unit_type) = some UnitType.PalmTree ∨
            ((tile.bind Tile.unit).map Unit.unit_type) = some UnitType.PineTree
        (acc.1 + (if is_water then 1 else 0), acc.2 + (if has_tree then 1 else 0)))
      (0, 0)
    if counts.1 > 0 ∧ counts.2 ≥ 1 ∧ e.current_turn % 5 ≠ 0 then some .PalmTree
    else if counts.2 ≥ 2 ∧ e.current_turn % 2 = 0 then some .PineTree
    else none

def collectTreeCoords (e : GameEngine) :
    List (Coord × Tile) → List Coord × List Coord → List Coord × List Coord
  | [], acc => acc
  | (c, tile) :: rest, (palms, pines) =>
    if tile.surface.is_water ∨ tile.unit.isSome then
      collectTreeCoords e rest (palms, pines)
    else
      match e.tree_for c with
      | some .PineTree => collectTreeCoords e rest (palms, pines ++ [c])
      | some .PalmTree => collectTreeCoords e rest (palms ++ [c], pines)
      | _ => collectTreeCoords e rest (palms, pines)

def addTrees (t : UnitType) : GameEngine → List Coord → Option GameEngine
  | e, [] => some e
  | e, c :: rest =>
    match e.create_and_place_unit t c with
    | (.error _, _) => none
    | (.ok _, e1) => addTrees t e1 rest

/-- `spread_forests`: collect growth sites against the pre-growth map, then
plant palms, then pines. -/
def GameEngine.spread_forests (e : GameEngine) : Option GameEngine :=
  let (palms, pines) := collectTreeCoords e e.location.map ([], [])
  match addTrees .PalmTree e palms with
  | none => none
  | some e1 => addTrees .PineTree e1 pines

/-- `end_turn`: the end-of-turn batch, in the source's order. -/
def GameEngine.end_turn (e : GameEngine) : Option GameEngine :=
  match e.apply_income with
  | none => none
  | some e1 =>
    let e2 := e1.refill_moves
    match e2.spread_forests with
    | none => none
    | some e3 =>
      match e3.replace_graves_with_pine_trees with
      | none => none
      | some e4 =>
        match e4.kill_starving_units with
        | none => none
        | some e5 =>
          match e5.check_for_active_players with
          | none => none
          | some e6 =>
            match e6.check_for_winner with
            | none => none
            | some e7 =>
              GameEngine.rewind_to_active_player
                { e7 with current_turn := e7.current_turn + 1, active_player_num := 0 }

/-- `end_players_turn`: advance to the next active player, rolling the turn
over when the last one finished. -/
def GameEngine.end_players_turn (e : GameEngine) : Option GameEngine :=
  match GameEngine.rewind_to_active_player
      { e with active_player_num := e.active_player_num + 1 } with
  | none => none
  | some e1 =>
    if e1.active_player_num ≥ e1.players.length then e1.end_turn else some e1

/-- `GameEngine::act`: validate, dispatch, recount caches, update player
activity and re-validate.  The result is `some (some err, e')` for a
rejected action (with the engine state at the moment of the early return),
`some (none, e')` for a successful one, `none` for a panic. -/
def GameEngine.act (e : GameEngine) (player_id : ID) (action : PlayerAction) :
    Option (Option PlayerActionError × GameEngine) :=
  match e.validate_action player_id with
  | none => none
  | some (some err) => some (some err, e)
  | some none =>
    let step : Option (Option PlayerActionError × GameEngine) :=
      match action with
      | .MoveUnit src dst => e.move_unit player_id src dst
      | .PlaceNewUnit orig_region_id t dst =>
        e.place_new_unit player_id orig_region_id t dst
      | .UpgradeUnit dst => e.upgrade_unit player_id dst
      | .EndTurn => (e.end_players_turn).map (fun e' => (none, e'))
    match step with
    | none => none
    | some (some err, e') => some (some err, e')
    | some (none, e') =>
      match e'.recount_region_info with
      | none => none
      | some e2 =>
        match e2.check_for_active_players with
        | none => none
        | some e3 =>
          match e3.validate with
          | some (.ok _) => some (none, e3)
          | _ => none

/-- `GameEngine::new`: build the caches, validate, then refill all moves. -/
def GameEngine.new (location : Location) (players : List Player)
    (id_producer : IdProducer) : Option (Except EngineValidationError GameEngine) :=
  let region_info := location.regions.foldl
    (fun acc p =>
      insertA acc p.1
        (if p.2.coordinates.length ≥ MIN_CONTROLLED_REGION_SIZE then
          RegionInfo.new CONTROLLED_REGION_STARTING_MONEY
        else RegionInfo.new 0))
    []
  let player_activity := players.foldl (fun acc p => insertA acc p.id true) []
  let unit_info := (location.map.filterMap (fun ct => ct.2.unit)).foldl
    (fun acc u => insertA acc u.id (UnitInfo.from_unit u)) []
  let engine0 : GameEngine :=
    ⟨players, player_activity, none, 1, 0, location, region_info, unit_info,
      id_producer⟩
  match engine0.recount_region_info with
  | none => none
  | some e1 =>
    match e1.validate with
    | none => none
    | some (.error err) => some (.error err)
    | some (.ok _) => some (.ok e1.refill_moves)

/-- Engine states reachable by a validly constructed engine followed by any
sequence of successful `act` calls. -/
inductive Reachable : GameEngine → Prop where
  | base (location : Location) (players : List Player) (idp : IdProducer)
      (e : GameEngine) (h : GameEngine.new location players idp = some (.ok e)) :
      Reachable e
  | step (e e' : GameEngine) (player_id : ID) (action : PlayerAction)
      (he : Reachable e) (h : e.act player_id action = some (none, e')) :
      Reachable e'

/-! ## Well-formedness of the location index

The constructor `Location::new` builds `coordinate_to_region` from the
regions and every mutation keeps the two in sync; the properties below are
the part of that synchronisation some theorems assume (decidable, so a
concrete witness can discharge them by `decide`). -/

def locationWF (loc : Location) : Prop :=
  ∀ p ∈ loc.regions,
    p.2.id = p.1 ∧
      ∀ c ∈ p.2.coordinates, lookupA loc.coordinate_to_region c = some p.1

instance (loc : Location) : Decidable (locationWF loc) := by
  unfold locationWF; infer_instance

/-! ## The specification's claimed operation order for `PlaceNewUnit`

Stated from the spec's words, for comparison with the source's
`place_new_unit`: "if destination belongs to a different region than
`originating_region_id`, run `add_tile_to_region` first (so capital-fixup
and region cache updates happen against pre-placement topology); place the
new unit; ...".  The only difference from `GameEngine.place_new_unit` is
that the region move precedes the unit placement. -/
def GameEngine.place_new_unit_spec_order (e : GameEngine) (player_id : ID)
    (originating_region_id : ID) (unit_type : UnitType) (dst : Coord) :
    Option (Option PlayerActionError × GameEngine) :=
  match e.prepare_buying_unit player_id originating_region_id unit_type dst with
  | none => none
  | some (.error err) => some (some err, e)
  | some (.ok (need_relocation, old_unit_to_remove)) =>
    let afterRel : Option (Option PlayerActionError × GameEngine) :=
      if need_relocation then
        match e.add_tile_to_region dst originating_region_id with
        | none => none
        | some (.error err) => some (some err, e)
        | some (.ok e1) => some (none, e1)
      else some (none, e)
    match afterRel with
    | none => none
    | some (some err, e1) => some (some err, e1)
    | some (none, e1) =>
      match e1.create_and_place_unit unit_type dst with
      | (.error lerr, e2) => some (some (.LocationError lerr), e2)
      | (.ok _, e2) =>
        let e3 :=
          match old_unit_to_remove with
          | some old_id => { e2 with unit_info := removeA e2.unit_info old_id }
          | none => e2
        match e3.modify_money originating_region_id
            (0 - (description unit_type).purchase_cost) with
        | none => none
        | some e4 => some (none, e4)

/-! ## Concrete scenario states

`testEngine` is the engine built by `test_util.rs::create_valid_engine`
(ids follow the source's `IdProducer` sequence):

```
 Surface:    Owners:        Coordinates:
  * V * ~     1 1 1 ~          (0,-1) (1,-1) (2,-1) (3,-1)
 V ~ S V     3 ~ 1 2        (-1,0)  (0,0)  (1,0)  (2,0)
* * M *     3 1 2 2       (-2,1) (-1,1)  (0,1)  (1,1)
```
-/

def testMap : List (Coord × Tile) := [
  (⟨0,-1⟩, Tile.new 13 .Land), (⟨1,-1⟩, Tile.new 14 .Land), (⟨2,-1⟩, Tile.new 15 .Land),
  (⟨3,-1⟩, Tile.new 16 .Water), (⟨-1,0⟩, Tile.new 17 .Land), (⟨0,0⟩, Tile.new 18 .Water),
  (⟨1,0⟩, Tile.new 19 .Land), (⟨2,0⟩, Tile.new 20 .Land), (⟨-2,1⟩, Tile.new 21 .Land),
  (⟨-1,1⟩, Tile.new 22 .Land), (⟨0,1⟩, Tile.new 23 .Land), (⟨1,1⟩, Tile.new 24 .Land)]

def testRegions : List Region := [
  ⟨28, ⟨25⟩, [⟨0,-1⟩, ⟨1,-1⟩, ⟨2,-1⟩, ⟨1,0⟩]⟩,
  ⟨29, ⟨26⟩, [⟨2,0⟩, ⟨1,1⟩, ⟨0,1⟩]⟩,
  ⟨30, ⟨25⟩, [⟨-1,1⟩]⟩,
  ⟨31, ⟨27⟩, [⟨-1,0⟩, ⟨-2,1⟩]⟩]

def testPlayers : List Player := [⟨25⟩, ⟨26⟩, ⟨27⟩]

def placeTestUnits (loc : Location) : Option Location := do
  let l1 ← (loc.place_unit ⟨32, .Village⟩ ⟨1,-1⟩).toOption
  let l2 ← (l1.place_unit ⟨33, .Soldier⟩ ⟨1,0⟩).toOption
  let l3 ← (l2.place_unit ⟨34, .Militia⟩ ⟨0,1⟩).toOption
  let l4 ← (l3.place_unit ⟨35, .Village⟩ ⟨2,0⟩).toOption
  (l4.place_unit ⟨36, .Village⟩ ⟨-1,0⟩).toOption

def emptyLocation : Location := ⟨[], [], []⟩

def testLoc : Location :=
  match Location.new testMap testRegions with
  | some (.ok loc) => (placeTestUnits loc).getD emptyLocation
  | _ => emptyLocation

def emptyEngine : GameEngine := ⟨[], [], none, 1, 0, emptyLocation, [], [], ⟨0⟩⟩

def testEngine : GameEngine :=
  match GameEngine.new testLoc testPlayers ⟨36⟩ with
  | some (.ok e) => e
  | _ => emptyEngine

/-- Extract the successful-action engine (falling back to `emptyEngine`). -/
def stepEngine (r : Option (Option PlayerActionError × GameEngine)) : GameEngine :=
  match r with
  | some (none, e) => e
  | _ => emptyEngine

/-- Extract the rejected-action engine (falling back to `emptyEngine`). -/
def stepEngineErr (r : Option (Option PlayerActionError × GameEngine)) : GameEngine :=
  match r with
  | some (some _, e) => e
  | _ => emptyEngine

/-- After `MoveUnit (1,0) -> (2,-1)` (1 step inside the region). -/
def e_mv1 : GameEngine := stepEngine (testEngine.act 25 (.MoveUnit ⟨1,0⟩ ⟨2,-1⟩))

/-- After a further `MoveUnit (2,-1) -> (0,-1)` (2 more steps). -/
def e_mv2 : GameEngine := stepEngine (e_mv1.act 25 (.MoveUnit ⟨2,-1⟩ ⟨0,-1⟩))

/-- After the attack `MoveUnit (1,0) -> (1,1)` (captures a tile of region
29, splitting it). -/
def e_atk : GameEngine := stepEngine (testEngine.act 25 (.MoveUnit ⟨1,0⟩ ⟨1,1⟩))

/-- The location after only the physical part of the attack move, as the
`MoveUnit` handler produces it just before calling `add_tile_to_region`. -/
def atkLocAfterMove : Location :=
  match testEngine.location.move_unit ⟨1,0⟩ ⟨1,1⟩ with
  | .ok l => l
  | .error _ => emptyLocation

/-- The transformations reported by the location-level `add_tile_to_region`
during the attack. -/
def atkTransformations : Option (List RegionTransformation) :=
  match atkLocAfterMove.add_tile_to_region ⟨1,1⟩ 28 testEngine.id_producer with
  | some (.ok (ts, _, _)) => some ts
  | _ => none

/-- `testEngine` with a fresh full-moves `Militia` on `(2,-1)` (the
`move_unit_and_merge_all_ok_goal_not_moved_before` scenario). -/
def mergeEngine : GameEngine :=
  match testEngine.create_and_place_unit .Militia ⟨2,-1⟩ with
  | (.ok uid, e1) =>
    match lookupA e1.unit_info uid with
    | some info => { e1 with unit_info := insertA e1.unit_info uid info.refill_moves }
    | none => e1
  | (.error _, _) => emptyEngine

def e_merge : GameEngine := stepEngine (mergeEngine.act 25 (.MoveUnit ⟨1,0⟩ ⟨2,-1⟩))

/-- `testEngine` with a `Soldier` on the single-tile region 30 and freshly
recounted caches (a small region that is not economically inert). -/
def c8Engine : GameEngine :=
  match testEngine.create_and_place_unit .Soldier ⟨-1,1⟩ with
  | (.ok _, e1) => (e1.recount_region_info).getD e1
  | (.error _, _) => emptyEngine

def c8AfterIncome : GameEngine := (c8Engine.apply_income).getD emptyEngine

def c8AfterTurns : GameEngine :=
  stepEngine ((stepEngine ((stepEngine (c8Engine.act 25 .EndTurn)).act 26 .EndTurn)).act
    27 .EndTurn)

/-- A finished game: the winner is set and player 1 is the active player.
`validate_action` rejects before the location is ever read. -/
def c9Engine : GameEngine :=
  ⟨[⟨1⟩, ⟨2⟩], [(1, true), (2, false)], some 1, 3, 0, emptyLocation, [], [], ⟨5⟩⟩

/-- The C4 scenario: player 1 owns the single-tile regions 101 `{(1,0)}`
and 102 `{(-1,0)}`; player 2 owns region 103 `{(0,0), (0,-1)}` whose
capital sits on `(0,0)`.  Region 101 holds 20 money.  Placing a Soldier
from region 101 onto `(0,0)` defeats the capital, relocates the tile and
merges region 102 in. -/
def c4Map : List (Coord × Tile) := [
  (⟨1,0⟩, Tile.new 11 .Land), (⟨0,0⟩, (Tile.new 12 .Land).place_unit ⟨50, .Village⟩),
  (⟨-1,0⟩, Tile.new 13 .Land), (⟨0,-1⟩, Tile.new 14 .Land)]

def c4Loc : Location :=
  { map := c4Map,
    regions := [(101, ⟨101, ⟨1⟩, [⟨1,0⟩]⟩), (102, ⟨102, ⟨1⟩, [⟨-1,0⟩]⟩),
                (103, ⟨103, ⟨2⟩, [⟨0,0⟩, ⟨0,-1⟩]⟩)],
    coordinate_to_region := [(⟨1,0⟩, 101), (⟨-1,0⟩, 102), (⟨0,0⟩, 103), (⟨0,-1⟩, 103)] }

def c4Engine : GameEngine :=
  { players := [⟨1⟩, ⟨2⟩], player_activity := [(1, true), (2, true)],
    winner := none, current_turn := 1, active_player_num := 0,
    location := c4Loc,
    region_info := [(101, ⟨20, 0, 0⟩), (102, ⟨0, 0, 0⟩), (103, ⟨10, 0, 0⟩)],
    unit_info := [(50, ⟨description .Village, 0⟩)], id_producer := ⟨60⟩ }

def c4Handler : Option (Option PlayerActionError × GameEngine) :=
  c4Engine.place_new_unit 1 101 .Soldier ⟨0,0⟩

def c4HandlerSpecOrder : Option (Option PlayerActionError × GameEngine) :=
  c4Engine.place_new_unit_spec_order 1 101 .Soldier ⟨0,0⟩

def c4After : GameEngine := stepEngine (c4Engine.act 1 (.PlaceNewUnit 101 .Soldier ⟨0,0⟩))

/-- `testEngine` after `apply_income` (no action in between), used to show
the empty small region 30 is skipped. -/
def c8SmallSkip : GameEngine := (testEngine.apply_income).getD emptyEngine

/-- The engine state returned together with the `NotEnoughMoney` rejection
of buying a Knight from region 28. -/
def c2ErrEngine : GameEngine :=
  stepEngineErr (testEngine.act 25 (.PlaceNewUnit 28 .Knight ⟨2,-1⟩))

/-- A post-split location for exercising `split_region` directly: the old
region 200 (money 7) has just been split into regions 201 `{(0,0),(1,0)}`,
202 `{(3,0),(4,0)}` and 203 `{(6,0)}`. -/
def c5SplitLoc : Location :=
  { map := [(⟨0,0⟩, Tile.new 81 .Land), (⟨1,0⟩, Tile.new 82 .Land),
            (⟨3,0⟩, Tile.new 83 .Land), (⟨4,0⟩, Tile.new 84 .Land),
            (⟨6,0⟩, Tile.new 85 .Land)],
    regions := [(201, ⟨201, ⟨1⟩, [⟨0,0⟩, ⟨1,0⟩]⟩),
                (202, ⟨202, ⟨1⟩, [⟨3,0⟩, ⟨4,0⟩]⟩),
                (203, ⟨203, ⟨1⟩, [⟨6,0⟩]⟩)],
    coordinate_to_region := [(⟨0,0⟩, 201), (⟨1,0⟩, 201), (⟨3,0⟩, 202),
                             (⟨4,0⟩, 202), (⟨6,0⟩, 203)] }

def c5SplitEngine : GameEngine :=
  { players := [⟨1⟩], player_activity := [(1, true)], winner := none,
    current_turn := 1, active_player_num := 0, location := c5SplitLoc,
    region_info := [(200, ⟨7, 0, 0⟩)], unit_info := [], id_producer := ⟨90⟩ }

def c5SplitAfter : GameEngine :=
  (c5SplitEngine.split_region 200 [201, 202, 203]).getD emptyEngine

/-- A two-region state of one owner for exercising `merge_regions`
directly: region 301 `{(0,0),(1,0)}` (money 7, capital on `(0,0)`) absorbs
region 302 `{(2,0)}` (money 5). -/
def c5MergeEngine : GameEngine :=
  { players := [⟨1⟩], player_activity := [(1, true)], winner := none,
    current_turn := 1, active_player_num := 0,
    location :=
      { map := [(⟨0,0⟩, (Tile.new 86 .Land).place_unit ⟨70, .Village⟩),
                (⟨1,0⟩, Tile.new 87 .Land), (⟨2,0⟩, Tile.new 88 .Land)],
        regions := [(301, ⟨301, ⟨1⟩, [⟨0,0⟩, ⟨1,0⟩]⟩),
                    (302, ⟨302, ⟨1⟩, [⟨2,0⟩]⟩)],
        coordinate_to_region := [(⟨0,0⟩, 301), (⟨1,0⟩, 301), (⟨2,0⟩, 302)] },
    region_info := [(301, ⟨7, 0, 0⟩), (302, ⟨5, 0, 0⟩)],
    unit_info := [(70, ⟨description .Village, 0⟩)], id_producer := ⟨95⟩ }

def c5MergeAfter : GameEngine :=
  (c5MergeEngine.merge_regions 302 301).getD emptyEngine

def c5DeleteAfter : GameEngine :=
  (processTransformations c5MergeEngine [.Delete 302]).getD emptyEngine

/-- `testEngine` with a `PineTree` placed on `(2,-1)` (region 28, where the
Soldier 33 lives): moving the Soldier onto the tree is a same-region
capture (`need_relocation = false`, an occupant to remove, no upgrade). -/
def c3TreeEngine : GameEngine :=
  match testEngine.create_and_place_unit .PineTree ⟨2,-1⟩ with
  | (.ok _, e1) => e1
  | (.error _, _) => emptyEngine

/-- The state after the Soldier captures the tree tile `(2,-1)`. -/
def c3TreeAfter : GameEngine :=
  match c3TreeEngine.move_unit 25 ⟨1,0⟩ ⟨2,-1⟩ with
  | some (none, e1) => e1
  | _ => emptyEngine

def c6After : GameEngine :=
  match mergeEngine.move_unit 25 ⟨1,0⟩ ⟨2,-1⟩ with
  | some (none, e1) => e1
  | _ => emptyEngine

/-- Whether the region registered under `id` meets the minimum controlled
size (used to phrase the money-distribution facts about `split_region`). -/
def region_is_big (regions : List (ID × Region)) (id : ID) : Bool :=
  ((lookupA regions id).map
    (fun r => decide (MIN_CONTROLLED_REGION_SIZE ≤ r.coordinates.length))).getD false

/-! # Lemmas about the association-list helpers -/

theorem lookupA_insertA_self {α β : Type} [DecidableEq α]
    (l : List (α × β)) (k : α) (v : β) : lookupA (insertA l k v) k = some v := by
  induction l with
  | nil => simp [insertA, lookupA]
  | cons kv rest ih =>
    obtain ⟨k0, v0⟩ := kv
    by_cases h : k0 = k
    · subst h; simp [insertA, lookupA]
    · simp [insertA, h, lookupA, ih]

theorem lookupA_insertA_ne {α β : Type} [DecidableEq α]
    (l : List (α × β)) (k k' : α) (v : β) (h : k' ≠ k) :
    lookupA (insertA l k v) k' = lookupA l k' := by
  induction l with
  | nil => simp [insertA, lookupA, Ne.symm h]
  | cons kv rest ih =>
    obtain ⟨k0, v0⟩ := kv
    by_cases h0 : k0 = k
    · subst h0; simp [insertA, lookupA, Ne.symm h]
    · simp [insertA, h0, lookupA, ih]

theorem lookupA_removeA_self {α β : Type} [DecidableEq α]
    (l : List (α × β)) (k : α) : lookupA (removeA l k) k = none := by
  induction l with
  | nil => simp [removeA, lookupA]
  | cons kv rest ih =>
    obtain ⟨k0, v0⟩ := kv
    by_cases h : k0 = k
    · simp [removeA, h, ih]
    · simp [removeA, h, lookupA, ih]

theorem lookupA_removeA_ne {α β : Type} [DecidableEq α]
    (l : List (α × β)) (k k' : α) (h : k' ≠ k) :
    lookupA (removeA l k) k' = lookupA l k' := by
  induction l with
  | nil => simp [removeA, lookupA]
  | cons kv rest ih =>
    obtain ⟨k0, v0⟩ := kv
    by_cases h0 : k0 = k
    · subst h0; simp [removeA, lookupA, Ne.symm h, ih]
    · simp [removeA, h0, lookupA, ih]

theorem lookupA_mem {α β : Type} [DecidableEq α]
    {l : List (α × β)} {k : α} {v : β} (h : lookupA l k = some v) : (k, v) ∈ l := by
  induction l with
  | nil => simp [lookupA] at h
  | cons kv rest ih =>
    obtain ⟨k0, v0⟩ := kv
    by_cases hk : k0 = k
    · subst hk
      simp only [lookupA, if_pos rfl] at h
      cases h
      exact List.mem_cons_self _ _
    · simp only [lookupA, if_neg hk] at h
      exact List.mem_cons_of_mem _ (ih h)

/-! # Preservation lemmas: unit surgery never touches the region tables -/

theorem place_unit_fields {loc : Location} {u : Unit} {c : Coord} {loc' : Location}
    (h : loc.place_unit u c = .ok loc') :
    loc'.regions = loc.regions ∧ loc'.coordinate_to_region = loc.coordinate_to_region := by
  unfold Location.place_unit at h
  split at h
  · cases h
  · cases h; exact ⟨rfl, rfl⟩

theorem remove_unit_fields {loc : Location} {c : Coord} {r : Option Unit}
    {loc' : Location} (h : loc.remove_unit c = .ok (r, loc')) :
    loc'.regions = loc.regions ∧ loc'.coordinate_to_region = loc.coordinate_to_region := by
  unfold Location.remove_unit at h
  split at h
  · cases h
  · cases h; exact ⟨rfl, rfl⟩

theorem maybe_remove_unit_fields {e : GameEngine} {c : Coord}
    {r : Option (Unit × UnitInfo)} {e1 : GameEngine}
    (h : e.maybe_remove_unit c = some (r, e1)) :
    e1.location.regions = e.location.regions ∧
      e1.location.coordinate_to_region = e.location.coordinate_to_region ∧
      e1.region_info = e.region_info := by
  unfold GameEngine.maybe_remove_unit at h
  split at h
  · cases h
  next loc heq =>
    cases h
    exact ⟨(remove_unit_fields heq).1, (remove_unit_fields heq).2, rfl⟩
  next u loc heq =>
    split at h
    · cases h
    next info hl =>
      cases h
      exact ⟨(remove_unit_fields heq).1, (remove_unit_fields heq).2, rfl⟩

theorem create_and_place_fields {e : GameEngine} {t : UnitType} {c : Coord}
    {res : Except LocationModificationError ID} {e1 : GameEngine}
    (h : e.create_and_place_unit t c = (res, e1)) :
    e1.location.regions = e.location.regions ∧
      e1.location.coordinate_to_region = e.location.coordinate_to_region ∧
      e1.region_info = e.region_info := by
  simp only [GameEngine.create_and_place_unit, IdProducer.next_id, IdProducer.next,
    UnitInfo.new] at h
  split at h
  next err heq =>
    cases h
    exact ⟨rfl, rfl, rfl⟩
  next loc heq =>
    cases h
    exact ⟨(place_unit_fields heq).1, (place_unit_fields heq).2, rfl⟩

theorem removeExtraCapitals_fields :
    ∀ (cs : List Coord) (e e1 : GameEngine),
    removeExtraCapitals e cs = some e1 →
    e1.location.regions = e.location.regions ∧
      e1.location.coordinate_to_region = e.location.coordinate_to_region ∧
      e1.region_info = e.region_info := by
  intro cs
  induction cs with
  | nil =>
    intro e e1 h
    cases h
    exact ⟨rfl, rfl, rfl⟩
  | cons c rest ih =>
    intro e e1 h
    simp only [removeExtraCapitals] at h
    split at h
    · cases h
    · cases h
    next u e2 heq =>
      have h1 := maybe_remove_unit_fields heq
      have h2 := ih e2 e1 h
      exact ⟨h2.1.trans h1.1, h2.2.1.trans h1.2.1, h2.2.2.trans h1.2.2⟩

theorem fix_capital_fields {e : GameEngine} {region_id : ID} {e1 : GameEngine}
    (h : e.fix_capital region_id = some e1) :
    e1.location.regions = e.location.regions ∧
      e1.location.coordinate_to_region = e.location.coordinate_to_region ∧
      e1.region_info = e.region_info := by
  simp only [GameEngine.fix_capital] at h
  split at h
  · cases h
  next region hreg =>
    split at h
    · cases h
    next hall =>
      split at h
      next hsz =>
        split at h
        next hcap => cases h; exact ⟨rfl, rfl, rfl⟩
        next hcap =>
          split at h
          · cases h
          next c hh =>
            split at h
            · cases h
            · cases h
            next u e2 heq =>
              cases h
              exact maybe_remove_unit_fields heq
      next hsz =>
        split at h
        next hcap =>
          split at h
          · cases h
          next coord hco =>
            split at h
            · cases h
            next ou e2 heq =>
              split at h
              next e3 hc => cases h
              next uid e3 hc =>
                cases h
                have h1 := maybe_remove_unit_fields heq
                have h2 := create_and_place_fields hc
                exact ⟨h2.1.trans h1.1, h2.2.1.trans h1.2.1, h2.2.2.trans h1.2.2⟩
        next hcap =>
          split at h
          next hgt => exact removeExtraCapitals_fields _ _ _ h
          next hgt =>
            cases h
            exact ⟨rfl, rfl, rfl⟩

/-! # C10: the id producer -/

theorem producerAfter_last (n : Nat) :
    (producerAfter n).last_issued_id = n % U32_SIZE := by
  induction n with
  | zero => rfl
  | succ n ih =>
    show ((producerAfter n).last_issued_id + 1) % U32_SIZE = (n + 1) % U32_SIZE
    rw [ih, Nat.add_mod n 1]
    norm_num [U32_SIZE]

/-- The bridge form of `producerAfter_last` stated about `nthIssuedId`. -/
theorem nthIssuedId_eq (n : Nat) : nthIssuedId n = n % U32_SIZE :=
  producerAfter_last n

/-- C10 counterexample: the id allocated by the `2 ^ 32`-th call of
`IdProducer::next` on a fresh producer is `NO_ID` (the `u32` counter has
wrapped), so ids are not always distinct from `NO_ID` and two calls are not
always distinct. -/
theorem c10_counterexample : nthIssuedId U32_SIZE = NO_ID :=
  (nthIssuedId_eq U32_SIZE).trans (Nat.mod_self _)

/-- C10 (amended): for every run of fewer than `2 ^ 32` calls,
`IdProducer::next` returns strictly increasing ids starting from 1 — the
`i`-th call returns `i`, which is never `NO_ID` — so within that bound all
allocated ids are distinct from the `NO_ID` sentinel and from each other. -/
theorem c10_amended_producer_monotone (i j : Nat) (hi : 0 < i) (hij : i < j)
    (hj : j < U32_SIZE) :
    nthIssuedId i = i ∧ nthIssuedId i ≠ NO_ID ∧ nthIssuedId i < nthIssuedId j := by
  have hiu : i < U32_SIZE := lt_trans hij hj
  have h1 : nthIssuedId i = i := by
    rw [nthIssuedId_eq, Nat.mod_eq_of_lt hiu]
  have h2 : nthIssuedId j = j := by
    rw [nthIssuedId_eq, Nat.mod_eq_of_lt hj]
  refine ⟨h1, ?_, ?_⟩
  · rw [h1]
    exact fun h => absurd h (Nat.pos_iff_ne_zero.mp hi)
  · rw [h1, h2]
    exact hij

/-- Witness for the amended C10 at the first two calls. -/
theorem c10_amended_witness :
    nthIssuedId 1 = 1 ∧ nthIssuedId 1 ≠ NO_ID ∧ nthIssuedId 1 < nthIssuedId 2 :=
  c10_amended_producer_monotone 1 2 (by decide) (by decide)
    (by norm_num [U32_SIZE])

/-! # C9: actions after the game is finished -/

/-- C9 counterexample: with the winner set, an `act` by a player other than
the active player is rejected with `OtherPlayersTurn`, not
`GameAlreadyFinished` (the turn-ownership check runs first); the state is
unchanged. -/
theorem c9_counterexample :
    c9Engine.winner = some 1 ∧
    c9Engine.act 2 .EndTurn = some (some (.OtherPlayersTurn 1), c9Engine) ∧
    PlayerActionError.OtherPlayersTurn 1 ≠ PlayerActionError.GameAlreadyFinished := by
  refine ⟨rfl, rfl, by decide⟩

/-- C9 (amended): once the winner is set, every `act` is rejected without
changing the engine: with `GameAlreadyFinished` when the caller is the
active player, and with `OtherPlayersTurn` otherwise. -/
theorem c9_amended_finished_game_rejects (e : GameEngine) (p : Player)
    (player_id : ID) (action : PlayerAction) (hw : e.winner.isSome = true)
    (hp : e.active_player = some p) :
    e.act player_id action =
      some (some (if player_id = p.id then PlayerActionError.GameAlreadyFinished
        else PlayerActionError.OtherPlayersTurn p.id), e) := by
  unfold GameEngine.act GameEngine.validate_action
  rw [hp]
  by_cases hpid : player_id = p.id
  · simp [hpid, hw]
  · simp [hpid]

/-- Witness for the amended C9: both rejection shapes at `c9Engine`. -/
theorem c9_amended_witness :
    c9Engine.act 1 .EndTurn = some (some PlayerActionError.GameAlreadyFinished, c9Engine) ∧
    c9Engine.act 2 (.UpgradeUnit ⟨0,0⟩) =
      some (some (PlayerActionError.OtherPlayersTurn 1), c9Engine) := by
  constructor
  · have h := c9_amended_finished_game_rejects c9Engine ⟨1⟩ 1 .EndTurn rfl rfl
    simpa using h
  · have h := c9_amended_finished_game_rejects c9Engine ⟨1⟩ 2 (.UpgradeUnit ⟨0,0⟩) rfl rfl
    simpa using h

/-! # C7: the Soldier movement-budget scenario -/

/-- C7 counterexample: a Soldier's move budget is 4, not 5, and the
concrete scenario of the claim plays out with the shifted numbers: after 3
steps 1 move is left (not 2) and the rejected follow-up reports
`NotEnoughMoves(1, 2)` (not `(2, 2)`). -/
theorem c7_counterexample :
    (description UnitType.Soldier).max_moves ≠ 5 ∧
    (lookupA e_mv2.unit_info 33).map UnitInfo.moves_left = some 1 ∧
    e_mv2.act 25 (.MoveUnit ⟨0,-1⟩ ⟨1,0⟩) = some (some (.NotEnoughMoves 1 2), e_mv2) ∧
    PlayerActionError.NotEnoughMoves 1 2 ≠ PlayerActionError.NotEnoughMoves 2 2 := by
  exact ⟨by decide, by rfl, by rfl, by decide⟩

/-- C7 (amended): a Soldier has `STANDARD_MOVES_NUM = 4` max moves; moving
it 3 steps inside its own region leaves `moves_left = 1`; a further
same-region move needing 2 moves fails with `NotEnoughMoves(1, 2)` — the
reported pair is ordered (have, need) — and leaves the engine unchanged. -/
theorem c7_amended_scenario :
    (description UnitType.Soldier).max_moves = STANDARD_MOVES_NUM ∧
    STANDARD_MOVES_NUM = 4 ∧
    (lookupA testEngine.unit_info 33).map UnitInfo.moves_left = some 4 ∧
    testEngine.act 25 (.MoveUnit ⟨1,0⟩ ⟨2,-1⟩) = some (none, e_mv1) ∧
    e_mv1.act 25 (.MoveUnit ⟨2,-1⟩ ⟨0,-1⟩) = some (none, e_mv2) ∧
    (lookupA e_mv2.unit_info 33).map UnitInfo.moves_left = some 1 ∧
    e_mv2.act 25 (.MoveUnit ⟨0,-1⟩ ⟨1,0⟩) = some (some (.NotEnoughMoves 1 2), e_mv2) := by
  exact ⟨by rfl, by rfl, by rfl, by rfl, by rfl, by rfl, by rfl⟩

/-! # C4: operation order of `PlaceNewUnit` -/

/-- C4 counterexample: on `c4Engine` (a cross-region purchase defeating the
destination region's capital and triggering a merge) the source's
`place_new_unit` and the variant that runs `add_tile_to_region` before
placing the unit both succeed but produce different states: the source
order leaves the destination occupied by the new unit during capital fixup,
so fixup does not count the defeated Village and creates a fresh capital on
`(1,0)`; the claimed order sees the defeated Village still on the
destination and creates no capital.  Hence the engine does not run
`add_tile_to_region` before placing the new unit. -/
theorem c4_counterexample :
    (c4Handler.map Prod.fst) = some none ∧
    (c4HandlerSpecOrder.map Prod.fst) = some none ∧
    c4Handler ≠ c4HandlerSpecOrder ∧
    (((stepEngine c4Handler).location.tile_at ⟨1,0⟩).bind Tile.unit).map
      Unit.unit_type = some UnitType.Village ∧
    ((stepEngine c4HandlerSpecOrder).location.tile_at ⟨1,0⟩).bind Tile.unit = none := by
  exact ⟨by rfl, by rfl, by decide, by rfl, by rfl⟩

/-- C4 (amended): in a successful cross-region `PlaceNewUnit` the engine
places the new unit on the destination first and only then runs
`add_tile_to_region`, so capital fixup and region-cache updates run against
the post-placement topology (the destination is occupied by the new unit
while the region structure is rebalanced).  Demonstrated on `c4Engine`: the
tile captured from region 103 joins region 101, the defeated Village is not
counted by the fixup, and a fresh capital appears on the empty own tile
`(1,0)`. -/
theorem c4_amended_placement_precedes_region_move :
    (c4Engine.location.region_at ⟨0,0⟩).map Region.id = some 103 ∧
    c4Engine.act 1 (.PlaceNewUnit 101 .Soldier ⟨0,0⟩) = some (none, c4After) ∧
    ((c4After.location.tile_at ⟨0,0⟩).bind Tile.unit).map Unit.unit_type =
      some UnitType.Soldier ∧
    (c4After.location.region_at ⟨0,0⟩).map Region.id = some 101 ∧
    ((c4After.location.tile_at ⟨1,0⟩).bind Tile.unit).map Unit.unit_type =
      some UnitType.Village ∧
    ((c4After.location.tile_at ⟨-1,0⟩).bind Tile.unit) = none := by
  exact ⟨by rfl, by rfl, by rfl, by rfl, by rfl, by rfl⟩

/-! # C5: money redistribution on region transformations -/

/-- C5 counterexample: the attack `(1,0) -> (1,1)` splits region 29 (money
10) into two single-tile regions 29 and 37; both end with 0 money, so the
resulting regions' balances do not sum to the old region's balance. -/
theorem c5_counterexample :
    testEngine.region_money 29 = some 10 ∧
    atkTransformations = some [.Split 29 [29, 37]] ∧
    testEngine.act 25 (.MoveUnit ⟨1,0⟩ ⟨1,1⟩) = some (none, e_atk) ∧
    e_atk.region_money 29 = some 0 ∧
    e_atk.region_money 37 = some 0 ∧
    (0 : Int) + 0 ≠ 10 := by
  exact ⟨by rfl, by rfl, by rfl, by rfl, by rfl, by decide⟩

/-! # C8: economic activity of small regions -/

/-- C8 counterexample: the single-tile region 30 hosts a Soldier; the
end-of-turn income step charges it `income - upkeep = 1 - 6`, driving its
balance from 0 to -5 (both when `apply_income` runs alone and across the
full end-of-turn rollover), so small regions are not economically inert. -/
theorem c8_counterexample :
    ((lookupA c8Engine.location.regions 30).map
      (fun r => r.coordinates.length)) = some 1 ∧
    1 < MIN_CONTROLLED_REGION_SIZE ∧
    c8Engine.region_money 30 = some 0 ∧
    c8Engine.apply_income = some c8AfterIncome ∧
    c8AfterIncome.region_money 30 = some (-5) ∧
    c8AfterTurns.region_money 30 = some (-5) ∧
    (-5 : Int) ≠ 0 := by
  exact ⟨by rfl, by decide, by rfl, by rfl, by rfl, by rfl, by decide⟩

theorem applyIncomeLoop_lookup_eq (loc : Location) (id : ID) :
    ∀ (rs : List (ID × Region)) (infos infos' : List (ID × RegionInfo)),
    applyIncomeLoop loc rs infos = some infos' →
    (∀ p ∈ rs, p.1 = id →
      p.2.coordinates.length < MIN_CONTROLLED_REGION_SIZE ∧
      (p.2.coordinates.head?.bind (fun c => (loc.tile_at c).bind Tile.unit)) = none) →
    lookupA infos' id = lookupA infos id := by
  intro rs
  induction rs with
  | nil =>
    intro infos infos' h _
    simp only [applyIncomeLoop] at h
    cases h
    rfl
  | cons p rest ih =>
    intro infos infos' h hcond
    obtain ⟨k, region⟩ := p
    have hrest : ∀ q ∈ rest, q.1 = id →
        q.2.coordinates.length < MIN_CONTROLLED_REGION_SIZE ∧
        (q.2.coordinates.head?.bind (fun c => (loc.tile_at c).bind Tile.unit)) = none :=
      fun q hq => hcond q (List.mem_cons_of_mem _ hq)
    by_cases hsmall : region.coordinates.length < MIN_CONTROLLED_REGION_SIZE
    · simp only [applyIncomeLoop, if_pos hsmall] at h
      cases hh : region.coordinates.head? with
      | none => simp [hh] at h
      | some c =>
        simp only [hh] at h
        cases ht : loc.tile_at c with
        | none => simp [ht] at h
        | some t =>
          simp only [ht] at h
          by_cases hu : t.unit.isNone = true
          · rw [if_pos hu] at h
            exact ih infos infos' h hrest
          · rw [if_neg hu] at h
            cases hl : lookupA infos k with
            | none => simp [hl] at h
            | some info =>
              simp only [hl] at h
              have hk : k ≠ id := by
                intro hk
                have h2 := (hcond (k, region) (List.mem_cons_self _ _) hk).2
                rw [hh] at h2
                simp only [Option.some_bind, ht] at h2
                exact hu (by simp [Option.isNone_iff_eq_none, h2])
              have hres := ih _ _ h hrest
              rw [hres, lookupA_insertA_ne _ _ _ _ (fun he => hk he.symm)]
    · simp only [applyIncomeLoop, if_neg hsmall] at h
      cases hl : lookupA infos k with
      | none => simp [hl] at h
      | some info =>
        simp only [hl] at h
        have hk : k ≠ id := by
          intro hk
          exact hsmall (hcond (k, region) (List.mem_cons_self _ _) hk).1
        have hres := ih _ _ h hrest
        rw [hres, lookupA_insertA_ne _ _ _ _ (fun he => hk he.symm)]

/-- C8 (amended): `apply_income` skips a region below
`MIN_CONTROLLED_REGION_SIZE` exactly when its (single) tile is unoccupied;
such a region's money record is untouched by the income step.  (A small
region whose tile hosts a unit is credited `income - upkeep` like any
other, as the counterexample shows.) -/
theorem c8_amended_small_empty_region_inert (e e' : GameEngine) (id : ID)
    (hcond : ∀ p ∈ e.location.regions, p.1 = id →
      p.2.coordinates.length < MIN_CONTROLLED_REGION_SIZE ∧
      (p.2.coordinates.head?.bind
        (fun c => (e.location.tile_at c).bind Tile.unit)) = none)
    (h : e.apply_income = some e') :
    lookupA e'.region_info id = lookupA e.region_info id ∧
      e'.region_money id = e.region_money id := by
  unfold GameEngine.apply_income at h
  cases hloop : applyIncomeLoop e.location e.location.regions e.region_info with
  | none => rw [hloop] at h; cases h
  | some infos' =>
    rw [hloop] at h
    cases h
    have := applyIncomeLoop_lookup_eq e.location id _ _ _ hloop hcond
    exact ⟨this, by unfold GameEngine.region_money; rw [this]⟩

/-- Witness for the amended C8: the empty single-tile region 30 of
`testEngine` keeps its money record across `apply_income`. -/
theorem c8_amended_witness :
    testEngine.apply_income = some c8SmallSkip ∧
    c8SmallSkip.region_money 30 = testEngine.region_money 30 := by
  constructor
  · rfl
  · exact (c8_amended_small_empty_region_inert testEngine c8SmallSkip 30
      (by decide) (by rfl)).2


/-! # C5: money bookkeeping of region transformations -/

theorem region_info_update (e : GameEngine) (X : List (ID × RegionInfo)) :
    ({e with region_info := X} : GameEngine).region_info = X := rfl

theorem splitCollect_spec :
    ∀ (ids : List ID) (e : GameEngine) (ins : List (ID × RegionInfo)) (owns : List ID)
      (e1 : GameEngine) (ins' : List (ID × RegionInfo)) (owns' : List ID),
    splitCollect e ids ins owns = some (e1, ins', owns') →
    e1.location.regions = e.location.regions ∧
      e1.region_info = e.region_info ∧
      ins' = ins ++ (ids.filter
        (fun id => ! region_is_big e.location.regions id)).map
        (fun id => (id, RegionInfo.new 0)) ∧
      owns' = owns ++ ids.filter (fun id => region_is_big e.location.regions id) := by
  intro ids
  induction ids with
  | nil =>
    intro e ins owns e1 ins' owns' h
    cases h
    simp
  | cons id rest ih =>
    intro e ins owns e1 ins' owns' h
    simp only [splitCollect] at h
    split at h
    next => exact Option.noConfusion h
    next e2 hfix =>
      split at h
      next => exact Option.noConfusion h
      next region hreg =>
        have hfields := fix_capital_fields hfix
        have hreg' : lookupA e.location.regions id = some region :=
          hfields.1 ▸ hreg
        split at h
        next hlt =>
          have hbig : region_is_big e.location.regions id = false := by
            simp only [region_is_big, hreg', Option.map_some', Option.getD_some,
              decide_eq_false_iff_not]
            omega
          obtain ⟨hr2, hi2, hins, howns⟩ := ih e2 _ _ _ _ _ h
          rw [hfields.1] at hins howns
          refine ⟨hr2.trans hfields.1, hi2.trans hfields.2.2, ?_, ?_⟩
          · rw [hins]
            simp [List.filter_cons, hbig]
          · rw [howns]
            simp [List.filter_cons, hbig]
        next hge =>
          have hbig : region_is_big e.location.regions id = true := by
            simp only [region_is_big, hreg', Option.map_some', Option.getD_some,
              decide_eq_true_eq]
            omega
          obtain ⟨hr2, hi2, hins, howns⟩ := ih e2 _ _ _ _ _ h
          rw [hfields.1] at hins howns
          refine ⟨hr2.trans hfields.1, hi2.trans hfields.2.2, ?_, ?_⟩
          · rw [hins]
            simp [List.filter_cons, hbig]
          · rw [howns]
            simp [List.filter_cons, hbig]

theorem distributeLoop_lookup_notmem (part : Int) :
    ∀ (ids : List ID) (rest : Int) (infos : List (ID × RegionInfo)) (id : ID),
    id ∉ ids →
    lookupA (distributeLoop part ids rest infos) id = lookupA infos id := by
  intro ids
  induction ids with
  | nil => intro rest infos id _; rfl
  | cons a tl ih =>
    intro rest infos id hid
    have ha : id ≠ a := fun h => hid (h ▸ List.mem_cons_self a tl)
    simp only [distributeLoop]
    rw [ih _ _ id (fun h => hid (List.mem_cons_of_mem a h))]
    exact lookupA_insertA_ne _ _ _ _ ha

theorem distributeLoop_sum (part : Int) :
    ∀ (ids : List ID) (rest : Int) (infos : List (ID × RegionInfo)),
    ids.Nodup →
    (ids.map (fun id =>
      ((lookupA (distributeLoop part ids rest infos) id).map
        RegionInfo.money_balance).getD 0)).sum
      = (ids.length : Int) * part + min (max rest 0) (ids.length : Int) := by
  intro ids
  induction ids with
  | nil =>
    intro rest infos _
    simp
  | cons a tl ih =>
    intro rest infos hnodup
    rw [List.nodup_cons] at hnodup
    simp only [distributeLoop, List.map_cons, List.sum_cons, List.length_cons]
    rw [distributeLoop_lookup_notmem part tl (rest - 1) _ a hnodup.1,
      lookupA_insertA_self, ih (rest - 1) _ hnodup.2]
    simp only [Option.map_some', Option.getD_some, RegionInfo.new]
    push_cast
    have expand : ((tl.length : Int) + 1) * part = (tl.length : Int) * part + part := by
      ring
    rw [expand]
    have hn0 : (0 : Int) ≤ (tl.length : Int) := Int.natCast_nonneg _
    generalize (tl.length : Int) * part = K
    generalize (tl.length : Int) = n at hn0 ⊢
    split
    next hr => omega
    next hr => omega

theorem foldl_insertA_lookup_notmem :
    ∀ (l : List (ID × RegionInfo)) (infos : List (ID × RegionInfo)) (id : ID),
    (∀ p ∈ l, p.1 ≠ id) →
    lookupA (l.foldl (fun infos p => insertA infos p.1 p.2) infos) id
      = lookupA infos id := by
  intro l
  induction l with
  | nil => intro infos id _; rfl
  | cons p tl ih =>
    intro infos id hne
    rw [List.foldl_cons, ih _ id (fun q hq => hne q (List.mem_cons_of_mem p hq))]
    exact lookupA_insertA_ne _ _ _ _ (fun h => hne p (List.mem_cons_self p tl) h.symm)

theorem foldl_insertA_lookup_mem :
    ∀ (l : List (ID × RegionInfo)) (infos : List (ID × RegionInfo)) (id : ID)
      (v : RegionInfo),
    (id, v) ∈ l → l.Pairwise (fun p q => p.1 ≠ q.1) →
    lookupA (l.foldl (fun infos p => insertA infos p.1 p.2) infos) id = some v := by
  intro l
  induction l with
  | nil => intro _ _ _ hmem _; cases hmem
  | cons p tl ih =>
    intro infos id v hmem hpw
    rw [List.pairwise_cons] at hpw
    rw [List.foldl_cons]
    rcases List.mem_cons.mp hmem with heq | hmem'
    · subst heq
      rw [foldl_insertA_lookup_notmem tl _ id
        (fun q hq h1 => hpw.1 q hq h1.symm)]
      exact lookupA_insertA_self infos id v
    · exact ih _ id v hmem' hpw.2

theorem sum_after_fold (bigs : List ID) (ins base : List (ID × RegionInfo))
    (hdisj : ∀ p ∈ ins, ∀ id ∈ bigs, p.1 ≠ id) :
    (bigs.map (fun id =>
      ((lookupA (ins.foldl (fun infos p => insertA infos p.1 p.2) base) id).map
        RegionInfo.money_balance).getD 0)).sum
      = (bigs.map (fun id =>
          ((lookupA base id).map RegionInfo.money_balance).getD 0)).sum := by
  refine congrArg List.sum (List.map_congr_left ?_)
  intro id hmem
  rw [foldl_insertA_lookup_notmem _ _ _ (fun p hp => hdisj p hp id hmem)]

theorem split_region_small_parts {e : GameEngine} {from_ : ID} {into : List ID}
    {e' : GameEngine}
    (h : e.split_region from_ into = some e') (hnodup : into.Nodup) :
    ∀ id ∈ into, region_is_big e.location.regions id = false →
      lookupA e'.region_info id = some (RegionInfo.new 0) := by
  intro id hmem hbig
  simp only [GameEngine.split_region] at h
  split at h
  next => exact Option.noConfusion h
  next src hsrc =>
    split at h
    next => exact Option.noConfusion h
    next e1 ins' owns' hcol =>
      cases h
      obtain ⟨hr, hi, hins, howns⟩ := splitCollect_spec into _ [] [] e1 ins' owns' hcol
      have hloc : ({e with region_info := removeA e.region_info from_} :
          GameEngine).location = e.location := rfl
      rw [hloc, List.nil_append] at hins
      subst hins
      have hmem' : (id, RegionInfo.new 0) ∈ (into.filter
          (fun id => ! region_is_big e.location.regions id)).map
          (fun id => (id, RegionInfo.new 0)) :=
        List.mem_map.mpr ⟨id, List.mem_filter.mpr ⟨hmem, by simp [hbig]⟩, rfl⟩
      have hkeys : ((into.filter
          (fun id => ! region_is_big e.location.regions id)).map
          (fun id => (id, RegionInfo.new 0))).Pairwise
          (fun p q => p.1 ≠ q.1) := by
        refine List.Pairwise.map _ (fun a b hab => ?_) (hnodup.filter _)
        simpa using hab
      exact foldl_insertA_lookup_mem _ _ id (RegionInfo.new 0) hmem' hkeys

theorem split_region_big_sum {e : GameEngine} {from_ : ID} {into : List ID}
    {src : RegionInfo} {e' : GameEngine}
    (hsrc : lookupA e.region_info from_ = some src)
    (h : e.split_region from_ into = some e') (hnodup : into.Nodup)
    (hpos : 0 ≤ src.money_balance)
    (hbigs : into.filter (fun id => region_is_big e.location.regions id) ≠ []) :
    ((into.filter (fun id => region_is_big e.location.regions id)).map
      (fun id =>
        ((lookupA e'.region_info id).map RegionInfo.money_balance).getD 0)).sum
      = src.money_balance := by
  simp only [GameEngine.split_region] at h
  split at h
  next heq => rw [heq] at hsrc; exact Option.noConfusion hsrc
  next src' hsrc' =>
    rw [hsrc'] at hsrc
    injection hsrc with hsrc
    subst hsrc
    split at h
    next => exact Option.noConfusion h
    next e1 ins' owns' hcol =>
      obtain ⟨hr, hi, hins, howns⟩ := splitCollect_spec into _ [] [] e1 ins' owns' hcol
      have hloc : ({e with region_info := removeA e.region_info from_} :
          GameEngine).location = e.location := rfl
      rw [hloc, List.nil_append] at hins
      rw [hloc, List.nil_append] at howns
      subst hins
      subst howns
      cases h
      rw [if_neg (by simp [List.isEmpty_iff, hbigs])]
      simp only [region_info_update]
      have hdisj : ∀ p ∈ (into.filter
          (fun id => ! region_is_big e.location.regions id)).map
          (fun id => (id, RegionInfo.new 0)),
          ∀ id ∈ into.filter (fun id => region_is_big e.location.regions id),
          p.1 ≠ id := by
        intro p hp id hmem hcontra
        rcases List.mem_map.mp hp with ⟨s, hs, hps⟩
        have hsmall := (List.mem_filter.mp hs).2
        have hbigid := (List.mem_filter.mp hmem).2
        rw [← hps] at hcontra
        simp only at hcontra
        rw [hcontra] at hsmall
        simp [hbigid] at hsmall
      rw [sum_after_fold _ _ _ hdisj]
      rw [distributeLoop_sum _ _ _ _ (hnodup.filter _)]
      have hlen : 0 < ((into.filter
          (fun id => region_is_big e.location.regions id)).length : Int) := by
        exact_mod_cast List.length_pos.mpr hbigs
      revert hlen
      generalize ((into.filter
          (fun id => region_is_big e.location.regions id)).length : Int) = n
      intro hlen
      rw [Int.tdiv_eq_ediv hpos (le_of_lt hlen)]
      have hdm := Int.ediv_add_emod src'.money_balance n
      have hmod : src'.money_balance - n * (src'.money_balance / n)
          = src'.money_balance % n := by linarith
      rw [hmod]
      rw [max_eq_left (Int.emod_nonneg _ (ne_of_gt hlen)),
        min_eq_left (le_of_lt (Int.emod_lt_of_pos _ hlen))]
      linarith

theorem merge_regions_spec {e : GameEngine} {from_ into : ID} {s d : RegionInfo}
    {e' : GameEngine} (hne : from_ ≠ into)
    (hs : lookupA e.region_info from_ = some s)
    (hd : lookupA e.region_info into = some d)
    (hm : e.merge_regions from_ into = some e') :
    e'.region_money into = some (d.money_balance + s.money_balance) ∧
      lookupA e'.region_info from_ = none := by
  simp only [GameEngine.merge_regions] at hm
  split at hm
  next => exact Option.noConfusion hm
  next e1 hfix =>
    have hf := fix_capital_fields hfix
    split at hm
    next => exact Option.noConfusion hm
    next src hsrc =>
      split at hm
      next => exact Option.noConfusion hm
      next dst hdst =>
        cases hm
        rw [hf.2.2] at hsrc hdst
        rw [lookupA_removeA_ne _ _ _ (Ne.symm hne)] at hdst
        rw [hs] at hsrc
        rw [hd] at hdst
        injection hsrc with hsrc
        injection hdst with hdst
        subst hsrc
        subst hdst
        constructor
        · simp only [GameEngine.region_money, region_info_update]
          rw [lookupA_insertA_self]
          rfl
        · simp only [region_info_update]
          rw [lookupA_insertA_ne _ _ _ _ hne]
          exact lookupA_removeA_self _ _

/-- C5 (amended): the money bookkeeping of region transformations. When a
region splits, every part smaller than the minimum controlled size gets a
fresh zero-money record, and — provided at least one part is big enough
and the old balance is nonnegative — the old region's balance is
redistributed exactly (its sum is preserved) over the big parts. When two
regions merge, the surviving region's balance is the sum of the two and
the absorbed region's record is dropped. When a region is deleted, its
money record is removed from the bookkeeping. -/
theorem c5_amended_money_bookkeeping :
    (∀ (e : GameEngine) (from_ : ID) (into : List ID) (src : RegionInfo)
      (e' : GameEngine),
      lookupA e.region_info from_ = some src →
      e.split_region from_ into = some e' →
      into.Nodup → 0 ≤ src.money_balance →
      (∀ id ∈ into, region_is_big e.location.regions id = false →
        lookupA e'.region_info id = some (RegionInfo.new 0)) ∧
      (into.filter (fun id => region_is_big e.location.regions id) ≠ [] →
        ((into.filter (fun id => region_is_big e.location.regions id)).map
          (fun id =>
            ((lookupA e'.region_info id).map RegionInfo.money_balance).getD 0)).sum
          = src.money_balance)) ∧
    (∀ (e : GameEngine) (from_ into : ID) (s d : RegionInfo) (e' : GameEngine),
      from_ ≠ into →
      lookupA e.region_info from_ = some s →
      lookupA e.region_info into = some d →
      e.merge_regions from_ into = some e' →
      e'.region_money into = some (d.money_balance + s.money_balance) ∧
        lookupA e'.region_info from_ = none) ∧
    (∀ (e : GameEngine) (id : ID) (e' : GameEngine),
      processTransformations e [.Delete id] = some e' →
      lookupA e'.region_info id = none) := by
  refine ⟨?_, ?_, ?_⟩
  · intro e from_ into src e' hsrc h hnodup hpos
    exact ⟨split_region_small_parts h hnodup,
      fun hbigs => split_region_big_sum hsrc h hnodup hpos hbigs⟩
  · intro e from_ into s d e' hne hs hd hm
    exact merge_regions_spec hne hs hd hm
  · intro e id e' h
    simp only [processTransformations] at h
    cases h
    exact lookupA_removeA_self _ _

/-- Witness for the amended C5 at concrete states: splitting region 200
(money 7) into 201, 202 (both big) and 203 (too small) leaves 203 with a
zero record and hands 4 + 3 = 7 to the big parts; merging region 302
(money 5) into 301 (money 7) gives 301 money 12 and drops 302; deleting
region 302 removes its record. -/
theorem c5_amended_witness :
    lookupA c5SplitAfter.region_info 203 = some (RegionInfo.new 0) ∧
    (([201, 202, 203].filter
        (fun id => region_is_big c5SplitEngine.location.regions id)).map
      (fun id =>
        ((lookupA c5SplitAfter.region_info id).map RegionInfo.money_balance).getD 0)).sum
      = 7 ∧
    c5MergeAfter.region_money 301 = some 12 ∧
    lookupA c5MergeAfter.region_info 302 = none ∧
    lookupA c5DeleteAfter.region_info 302 = none := by
  have hsplit := c5_amended_money_bookkeeping.1 c5SplitEngine 200 [201, 202, 203]
    ⟨7, 0, 0⟩ c5SplitAfter rfl rfl (by decide) (by decide)
  have hmerge := c5_amended_money_bookkeeping.2.1 c5MergeEngine 302 301
    ⟨5, 0, 0⟩ ⟨7, 0, 0⟩ c5MergeAfter (by decide) rfl rfl rfl
  have hdel := c5_amended_money_bookkeeping.2.2 c5MergeEngine 302 c5DeleteAfter rfl
  exact ⟨hsplit.1 203 (by decide) (by decide), hsplit.2 (by decide),
    hmerge.1, hmerge.2, hdel⟩


/-! # C3: the move budget spent on relocation or capture -/

theorem prepare_moving_unit_budget {e : GameEngine} {player_id : ID}
    {src dst : Coord} {prep : MovePrep}
    (h : e.prepare_moving_unit player_id src dst = some (.ok prep)) :
    ∃ info, lookupA e.unit_info prep.unit_id = some info ∧
      prep.moves_num ≤ info.moves_left ∧
      ((prep.need_relocation = true ∨ prep.old_unit_id_to_remove.isSome = true) →
        prep.moves_num = info.moves_left) := by
  simp only [GameEngine.prepare_moving_unit] at h
  split at h
  next => simp at h
  next tile htile =>
    split at h
    next => simp at h
    next region hregion =>
      split at h
      next => simp at h
      next hown =>
        split at h
        next => simp at h
        next unit hunit =>
          split at h
          next => exact Option.noConfusion h
          next => simp at h
          next nr old up hpp =>
            split at h
            next => exact Option.noConfusion h
            next unit_info hui =>
              split at h
              next => simp at h
              next d hd =>
                split at h
                next => simp at h
                next hmoves =>
                  injection h with h1
                  injection h1 with h2
                  subst h2
                  refine ⟨unit_info, hui, ?_, ?_⟩
                  · show (if nr ∨ old.isSome then unit_info.moves_left else d)
                        ≤ unit_info.moves_left
                    split
                    · exact le_refl _
                    · omega
                  · intro hc
                    show (if nr ∨ old.isSome then unit_info.moves_left else d)
                        = unit_info.moves_left
                    exact if_pos hc

theorem move_unit_same_region_capture_zero {e : GameEngine} {player_id : ID}
    {src dst : Coord} {prep : MovePrep} {e' : GameEngine}
    (hprep : e.prepare_moving_unit player_id src dst = some (.ok prep))
    (hnr : prep.need_relocation = false)
    (hold : prep.old_unit_id_to_remove.isSome = true)
    (hup : prep.upgrade_to = none)
    (hmv : e.move_unit player_id src dst = some (none, e')) :
    ∀ info', lookupA e'.unit_info prep.unit_id = some info' →
      info'.moves_left = 0 := by
  obtain ⟨info, hlook, hle, hfull⟩ := prepare_moving_unit_budget hprep
  have hmn : prep.moves_num = info.moves_left := hfull (Or.inr hold)
  rcases Option.isSome_iff_exists.mp hold with ⟨old_id, holdid⟩
  simp only [GameEngine.move_unit, hprep] at hmv
  split at hmv
  next => simp at hmv
  next loc1 hmvok =>
    simp only [hnr, Bool.false_eq_true, if_false, hlook,
      UnitInfo.subtract_moves, hmn, gt_iff_lt, lt_irrefl, if_false,
      Nat.sub_self, holdid, hup] at hmv
    injection hmv with h1
    injection h1 with h2 h3
    rw [← h3]
    intro info' hlook'
    change lookupA (removeA (insertA e.unit_info prep.unit_id
      ⟨info.desc, 0⟩) old_id) prep.unit_id = some info' at hlook'
    by_cases hid : prep.unit_id = old_id
    · rw [hid, lookupA_removeA_self] at hlook'
      exact Option.noConfusion hlook'
    · rw [lookupA_removeA_ne _ _ _ hid, lookupA_insertA_self] at hlook'
      injection hlook' with h4
      rw [← h4]

/-- C3: whenever a successful `MoveUnit` needs relocation (the destination
belongs to a different region) or removes/defeats/replaces a unit at the
destination, the number of moves `prepare_moving_unit` charges equals the
unit's entire remaining move budget, never more than it has and not the
geometric BFS distance; a same-region capture therefore leaves the mover
with zero moves, and in the concrete attack scenario (the Soldier on
`(1,0)` of region 28 capturing `(1,1)` of region 29) the attacker ends
with `moves_left = 0`. -/
theorem c3_full_budget_on_relocation_or_capture :
    (∀ (e : GameEngine) (player_id : ID) (src dst : Coord) (prep : MovePrep)
      (info : UnitInfo),
      e.prepare_moving_unit player_id src dst = some (.ok prep) →
      (prep.need_relocation = true ∨ prep.old_unit_id_to_remove.isSome = true) →
      lookupA e.unit_info prep.unit_id = some info →
      prep.moves_num = info.moves_left) ∧
    (∀ (e : GameEngine) (player_id : ID) (src dst : Coord) (prep : MovePrep)
      (e' : GameEngine),
      e.prepare_moving_unit player_id src dst = some (.ok prep) →
      prep.need_relocation = false →
      prep.old_unit_id_to_remove.isSome = true →
      prep.upgrade_to = none →
      e.move_unit player_id src dst = some (none, e') →
      ∀ info', lookupA e'.unit_info prep.unit_id = some info' →
        info'.moves_left = 0) ∧
    ((testEngine.location.region_at ⟨1,0⟩).map Region.id = some 28 ∧
      (testEngine.location.region_at ⟨1,1⟩).map Region.id = some 29 ∧
      testEngine.act 25 (.MoveUnit ⟨1,0⟩ ⟨1,1⟩) = some (none, e_atk) ∧
      (lookupA e_atk.unit_info 33).map UnitInfo.moves_left = some 0) := by
  refine ⟨?_, ?_, rfl, rfl, rfl, rfl⟩
  · intro e player_id src dst prep info h hcond hinfo
    obtain ⟨info0, hl0, _, hf⟩ := prepare_moving_unit_budget h
    rw [hl0] at hinfo
    injection hinfo with hiq
    rw [← hiq]
    exact hf hcond
  · intro e player_id src dst prep e' hprep hnr hold hup hmv
    exact move_unit_same_region_capture_zero hprep hnr hold hup hmv

/-- Witness for C3 at the tree-capture scenario: the Soldier 33 (4 moves)
stepping onto the own-region `PineTree` at `(2,-1)` is charged its full
4-move budget by `prepare_moving_unit` and ends the move with 0 moves. -/
theorem c3_witness :
    (MovePrep.mk 33 4 28 false (some 37) none).moves_num
      = (UnitInfo.mk (description .Soldier) 4).moves_left ∧
    (UnitInfo.mk (description .Soldier) 0).moves_left = 0 := by
  constructor
  · exact c3_full_budget_on_relocation_or_capture.1 c3TreeEngine 25 ⟨1,0⟩ ⟨2,-1⟩
      ⟨33, 4, 28, false, some 37, none⟩ ⟨description .Soldier, 4⟩ (by rfl)
      (Or.inr (by rfl)) (by rfl)
  · exact c3_full_budget_on_relocation_or_capture.2.1 c3TreeEngine 25 ⟨1,0⟩ ⟨2,-1⟩
      ⟨33, 4, 28, false, some 37, none⟩ c3TreeAfter (by rfl) (by rfl) (by rfl)
      (by rfl) (by rfl) ⟨description .Soldier, 0⟩ (by rfl)


/-! # C6: merging same-owner units -/

theorem unit_info_update (e : GameEngine) (X : List (ID × UnitInfo)) :
    ({e with unit_info := X} : GameEngine).unit_info = X := rfl

theorem create_and_place_ok {e : GameEngine} {t : UnitType} {c : Coord}
    {new_id : ID} {e1 : GameEngine}
    (h : e.create_and_place_unit t c = (.ok new_id, e1)) :
    e1.unit_info = insertA e.unit_info new_id ⟨description t, 0⟩ ∧
    (e1.location.tile_at c).bind Tile.unit = some ⟨new_id, t⟩ := by
  simp only [GameEngine.create_and_place_unit, IdProducer.next_id, IdProducer.next,
    UnitInfo.new] at h
  split at h
  next err heq =>
    injection h with h1 h2
    exact Except.noConfusion h1
  next loc heq =>
    injection h with h1 h2
    injection h1 with h1
    subst h1
    subst h2
    refine ⟨rfl, ?_⟩
    simp only [Location.place_unit] at heq
    split at heq
    next => exact Except.noConfusion heq
    next t0 ht0 =>
      injection heq with heq
      subst heq
      simp only [Location.tile_at]
      rw [lookupA_insertA_self]
      rfl

theorem maybe_remove_unit_unit_info {e : GameEngine} {c : Coord}
    {pr : Unit × UnitInfo} {e1 : GameEngine}
    (h : e.maybe_remove_unit c = some (some pr, e1)) :
    e1.unit_info = removeA e.unit_info pr.1.id := by
  simp only [GameEngine.maybe_remove_unit] at h
  split at h
  next => exact Option.noConfusion h
  next loc heq => simp at h
  next u loc heq =>
    split at h
    next => exact Option.noConfusion h
    next info hinfo =>
      injection h with h1
      injection h1 with h2 h3
      subst h3
      injection h2 with h2
      subst h2
      rfl

theorem move_unit_upgrade_result {e : GameEngine} {player_id : ID} {src dst : Coord}
    {prep : MovePrep} {t : UnitType} {old_id : ID} {old_info : UnitInfo}
    {e' : GameEngine}
    (hprep : e.prepare_moving_unit player_id src dst = some (.ok prep))
    (hnr : prep.need_relocation = false)
    (holdid : prep.old_unit_id_to_remove = some old_id)
    (hne : old_id ≠ prep.unit_id)
    (hupt : prep.upgrade_to = some t)
    (holdinfo : lookupA e.unit_info old_id = some old_info)
    (hmv : e.move_unit player_id src dst = some (none, e')) :
    ∃ new_id,
      (e'.location.tile_at dst).bind Tile.unit = some ⟨new_id, t⟩ ∧
      lookupA e'.unit_info new_id = some ⟨description t,
        if old_info.moves_left = old_info.desc.max_moves
        then (description t).max_moves else 0⟩ ∧
      (old_id ≠ new_id → lookupA e'.unit_info old_id = none) := by
  obtain ⟨info, hlook, hle, _⟩ := prepare_moving_unit_budget hprep
  simp only [GameEngine.move_unit, hprep] at hmv
  split at hmv
  next => simp at hmv
  next loc1 hmvok =>
    simp only [hnr, Bool.false_eq_true, if_false, hlook,
      UnitInfo.subtract_moves, holdid, hupt, gt_iff_lt] at hmv
    rw [if_neg (by omega)] at hmv
    split at hmv
    next heq2 => exact Option.noConfusion heq2
    next info2 heq2 =>
    injection heq2 with heq2
    subst heq2
    split at hmv
    next hx => exact Option.noConfusion hmv
    next x hx => exact Option.noConfusion hmv
    next pr e5 hmrem =>
      split at hmv
      next a b hab => exact Option.noConfusion hmv
      next new_id e6 hcreate =>
        obtain ⟨hui6, htile6⟩ := create_and_place_ok hcreate
        have h5 : e5.unit_info = removeA (removeA (insertA e.unit_info prep.unit_id
            ⟨info.desc, info.moves_left - prep.moves_num⟩) old_id) pr.1.id :=
          maybe_remove_unit_unit_info hmrem
        split at hmv
        next => exact Option.noConfusion hmv
        next oinf hoi =>
          rw [lookupA_insertA_ne _ _ _ _ hne, holdinfo] at hoi
          injection hoi with hoi
          subst hoi
          split at hmv
          next hfull =>
            rw [hui6, lookupA_insertA_self] at hmv
            injection hmv with h1
            injection h1 with h2 h3
            subst h3
            refine ⟨new_id, htile6, ?_, ?_⟩
            · rw [unit_info_update, lookupA_insertA_self, if_pos hfull]
              rfl
            · intro hneq
              rw [unit_info_update, lookupA_insertA_ne _ _ _ _ hneq,
                lookupA_insertA_ne _ _ _ _ hneq, h5]
              by_cases hid : old_id = pr.1.id
              · rw [hid, lookupA_removeA_self]
              · rw [lookupA_removeA_ne _ _ _ hid, lookupA_removeA_self]
          next hnotfull =>
            injection hmv with h1
            injection h1 with h2 h3
            subst h3
            refine ⟨new_id, htile6, ?_, ?_⟩
            · rw [hui6, lookupA_insertA_self, if_neg hnotfull]
            · intro hneq
              rw [hui6, lookupA_insertA_ne _ _ _ _ hneq, h5]
              by_cases hid : old_id = pr.1.id
              · rw [hid, lookupA_removeA_self]
              · rw [lookupA_removeA_ne _ _ _ hid, lookupA_removeA_self]

/-- C6: a `MoveUnit` onto a same-owner unit with a differing merge result
replaces both units by a freshly created unit of the merged type at the
destination (in particular `merge_result Militia Soldier = Knight`), and
the new unit's `moves_left` is its type's max moves exactly when the
merged-into unit had full moves immediately before the merge, and zero
otherwise (shown for same-region merges, where the merged-into unit's
record is untouched between validation and effect). -/
theorem c6_merge_creates_fresh_unit :
    merge_result .Militia .Soldier = some .Knight ∧
    ∀ (e : GameEngine) (player_id : ID) (src dst : Coord) (prep : MovePrep)
      (t : UnitType) (old_id : ID) (old_info : UnitInfo) (e' : GameEngine),
      e.prepare_moving_unit player_id src dst = some (.ok prep) →
      prep.need_relocation = false →
      prep.old_unit_id_to_remove = some old_id →
      old_id ≠ prep.unit_id →
      prep.upgrade_to = some t →
      lookupA e.unit_info old_id = some old_info →
      e.move_unit player_id src dst = some (none, e') →
      ∃ new_id,
        (e'.location.tile_at dst).bind Tile.unit = some ⟨new_id, t⟩ ∧
        lookupA e'.unit_info new_id = some ⟨description t,
          if old_info.moves_left = old_info.desc.max_moves
          then (description t).max_moves else 0⟩ ∧
        (old_id ≠ new_id → lookupA e'.unit_info old_id = none) := by
  refine ⟨by decide, ?_⟩
  intro e player_id src dst prep t old_id old_info e' h1 h2 h3 h4 h5 h6 h7
  exact move_unit_upgrade_result h1 h2 h3 h4 h5 h6 h7

/-- Witness for C6: in `mergeEngine` the Soldier 33 moves onto the freshly
bought (and refilled) Militia 37; the merge creates Knight 38 with full
moves and drops the Militia's record. -/
theorem c6_witness :
    lookupA c6After.unit_info 38 = some ⟨description .Knight,
      if (UnitInfo.mk (description .Militia) 4).moves_left
          = (UnitInfo.mk (description .Militia) 4).desc.max_moves
      then (description .Knight).max_moves else 0⟩ ∧
    lookupA c6After.unit_info 37 = none := by
  obtain ⟨nid, h1, h2, h3⟩ := c6_merge_creates_fresh_unit.2 mergeEngine 25 ⟨1,0⟩
    ⟨2,-1⟩ ⟨33, 4, 28, false, some 37, some .Knight⟩ .Knight 37
    ⟨description .Militia, 4⟩ c6After (by rfl) (by rfl) (by rfl) (by decide)
    (by rfl) (by rfl) (by rfl)
  have h4 : (c6After.location.tile_at ⟨2,-1⟩).bind Tile.unit
      = some ⟨38, .Knight⟩ := by rfl
  rw [h4] at h1
  injection h1 with h5
  injection h5 with h6 h7
  subst h6
  exact ⟨h2, h3 (by decide)⟩


/-! # C2: rejected actions leave the engine unchanged -/

theorem containsA_insertA {α β : Type} [DecidableEq α]
    (l : List (α × β)) (k k' : α) (v : β) (h : containsA l k' = true) :
    containsA (insertA l k v) k' = true := by
  by_cases hk : k' = k
  · subst hk
    simp [containsA, lookupA_insertA_self]
  · simpa [containsA, lookupA_insertA_ne _ _ _ _ hk] using h

theorem unit_can_step_facts {e : GameEngine} {t : UnitType} {dst : Coord} {rid : ID}
    (h : e.unit_can_step_on_coord t dst rid true = true) :
    containsA e.location.map dst = true ∧
    ∀ dst_region, e.location.region_at dst = some dst_region →
      dst_region.id ≠ rid →
      ∃ orig, lookupA e.location.regions rid = some orig ∧
        dst.neighbors.any (fun n => orig.coordinates.contains n) = true := by
  unfold GameEngine.unit_can_step_on_coord at h
  split at h
  next => exact Bool.noConfusion h
  next tile htile =>
    have hc : containsA e.location.map dst = true := by
      simp only [Location.tile_at] at htile
      simp [containsA, htile]
    refine ⟨hc, ?_⟩
    intro dst_region hreg hne
    split at h
    next => exact Bool.noConfusion h
    next =>
      split at h
      next => exact Bool.noConfusion h
      next dst_region' hreg' =>
        rw [hreg] at hreg'
        injection hreg' with hreg'
        subst hreg'
        split at h
        next heqid => exact absurd heqid hne
        next =>
          split at h
          next => exact Bool.noConfusion h
          next =>
            split at h
            next => exact Bool.noConfusion h
            next orig horig =>
              refine ⟨orig, horig, ?_⟩
              split at h
              next => exact Bool.noConfusion h
              next hadj =>
                simpa using hadj

theorem prepare_placing_ok_facts {e : GameEngine} {pid rid : ID} {t : UnitType}
    {dst : Coord} {nr : Bool} {old : Option ID} {up : Option UnitType}
    (h : e.prepare_placing_unit pid rid t dst = some (.ok (nr, old, up))) :
    e.unit_can_step_on_coord t dst rid true = true ∧
    ∃ dst_region, e.location.region_at dst = some dst_region ∧
      nr = decide (dst_region.id ≠ rid) := by
  simp only [GameEngine.prepare_placing_unit] at h
  split at h
  next => simp at h
  next hcs =>
    have hcs' : e.unit_can_step_on_coord t dst rid true = true := by
      revert hcs
      simp
    refine ⟨hcs', ?_⟩
    split at h
    next => simp at h
    next dst_region hreg =>
      have hreg2 : e.location.region_at dst = some dst_region := by
        unfold GameEngine.engine_region_at at hreg
        split at hreg
        next => exact Except.noConfusion hreg
        next r hr =>
          injection hreg with h2
          rw [← h2]
          exact hr
      refine ⟨dst_region, hreg2, ?_⟩
      split at h
      next => exact Option.noConfusion h
      next tile htile =>
        split at h
        next u hu =>
          split at h
          next howner =>
            split at h
            next => simp at h
            next mr hmr =>
              injection h with h1
              injection h1 with h1
              injection h1 with h2 h3
              exact h2.symm
          next howner =>
            split at h
            next => simp at h
            next =>
              injection h with h1
              injection h1 with h1
              injection h1 with h2 h3
              exact h2.symm
        next hu =>
          injection h with h1
          injection h1 with h1
          injection h1 with h2 h3
          exact h2.symm

theorem prepare_moving_relocation_facts {e : GameEngine} {player_id : ID}
    {src dst : Coord} {prep : MovePrep}
    (h : e.prepare_moving_unit player_id src dst = some (.ok prep)) :
    ∃ k region t nr old up,
      lookupA e.location.coordinate_to_region src = some k ∧
      lookupA e.location.regions k = some region ∧
      prep.region_id = region.id ∧
      e.prepare_placing_unit player_id region.id t dst = some (.ok (nr, old, up)) ∧
      prep.need_relocation = nr := by
  simp only [GameEngine.prepare_moving_unit] at h
  split at h
  next => simp at h
  next tile htile =>
    split at h
    next => simp at h
    next region hregion =>
      have hreg2 : e.location.region_at src = some region := by
        unfold GameEngine.engine_region_at at hregion
        split at hregion
        next => exact Except.noConfusion hregion
        next r hr =>
          injection hregion with h2
          rw [← h2]
          exact hr
      rw [Location.region_at] at hreg2
      obtain ⟨k, hk, hkr⟩ := Option.bind_eq_some.mp hreg2
      split at h
      next => simp at h
      next hown =>
        split at h
        next => simp at h
        next unit hunit =>
          split at h
          next => exact Option.noConfusion h
          next => simp at h
          next nr old up hpp =>
            split at h
            next => exact Option.noConfusion h
            next unit_info hui =>
              split at h
              next => simp at h
              next d hd =>
                split at h
                next => simp at h
                next hmoves =>
                  injection h with h1
                  injection h1 with h2
                  subst h2
                  exact ⟨k, region, unit.unit_type, nr, old, up, hk, hkr, rfl,
                    hpp, rfl⟩

theorem validate_and_prepare_ok {loc : Location} {c : Coord} {rid : ID}
    {orig : Region}
    (hc : containsA loc.map c = true)
    (horig : lookupA loc.regions rid = some orig)
    (hnotin : orig.coordinates.contains c = false)
    (hadj : c.neighbors.any (fun n => orig.coordinates.contains n) = true) :
    ∃ old mids, loc.validate_and_prepare_add_tile c rid = .ok (old, mids) := by
  unfold Location.validate_and_prepare_add_tile
  rw [if_neg (by simp [hc])]
  simp only [horig]
  rw [if_neg (fun hcc => by rw [hnotin] at hcc; exact Bool.noConfusion hcc),
    if_neg (fun hna => hna hadj)]
  exact ⟨_, _, rfl⟩

theorem add_tile_no_error {loc : Location} {c : Coord} {rid : ID} {idp : IdProducer}
    {old : ID} {mids : List ID} {err : LocationModificationError}
    (hvp : loc.validate_and_prepare_add_tile c rid = .ok (old, mids)) :
    loc.add_tile_to_region c rid idp ≠ some (.error err) := by
  intro h
  simp only [Location.add_tile_to_region, hvp] at h
  split at h
  next => exact Option.noConfusion h
  next actions loc3 idp' hstep =>
    split at h
    next => exact Option.noConfusion h
    next loc4 hadd =>
      split at h
      next => exact Option.noConfusion h
      next loc5 hmerge =>
        split at h
        next hval => simp at h
        next hval => exact Option.noConfusion h

theorem engine_add_tile_no_error {e : GameEngine} {c : Coord} {rid : ID}
    {orig : Region} {perr : PlayerActionError}
    (hc : containsA e.location.map c = true)
    (horig : lookupA e.location.regions rid = some orig)
    (hnotin : orig.coordinates.contains c = false)
    (hadj : c.neighbors.any (fun n => orig.coordinates.contains n) = true) :
    e.add_tile_to_region c rid ≠ some (.error perr) := by
  intro h
  obtain ⟨old, mids, hvp⟩ := validate_and_prepare_ok hc horig hnotin hadj
  simp only [GameEngine.add_tile_to_region] at h
  split at h
  next => exact Option.noConfusion h
  next oldRegion hor =>
    split at h
    next => exact Option.noConfusion h
    next err2 hloc => exact add_tile_no_error hvp hloc
    next res loc' idp' hok =>
      split at h
      next hres =>
        split at h
        next => exact Option.noConfusion h
        next e2 hfix => simp at h
      next hres =>
        split at h
        next => exact Option.noConfusion h
        next e2 hpt => simp at h

theorem loc_move_unit_fields {loc : Location} {src dst : Coord} {loc1 : Location}
    (h : loc.move_unit src dst = .ok loc1) :
    loc1.regions = loc.regions ∧
    loc1.coordinate_to_region = loc.coordinate_to_region ∧
    ∀ x, containsA loc.map x = true → containsA loc1.map x = true := by
  unfold Location.move_unit at h
  split at h
  next => exact Except.noConfusion h
  next hcont =>
    split at h
    next => exact Except.noConfusion h
    next t ht =>
      split at h
      next hnone => exact Except.noConfusion h
      next u t' htu =>
        unfold Location.place_unit at h
        split at h
        next => exact Except.noConfusion h
        next t0 ht0 =>
          injection h with h
          subst h
          refine ⟨rfl, rfl, ?_⟩
          intro x hx
          exact containsA_insertA _ _ _ _ (containsA_insertA _ _ _ _ hx)

theorem relocation_add_tile_safe {e : GameEngine} {player_id : ID} {src dst : Coord}
    {prep : MovePrep}
    (hwf : locationWF e.location)
    (hprep : e.prepare_moving_unit player_id src dst = some (.ok prep))
    (hnr : prep.need_relocation = true) :
    ∀ (e1 : GameEngine) (perr : PlayerActionError),
      e1.location.regions = e.location.regions →
      e1.location.coordinate_to_region = e.location.coordinate_to_region →
      (∀ x, containsA e.location.map x = true → containsA e1.location.map x = true) →
      e1.add_tile_to_region dst prep.region_id ≠ some (.error perr) := by
  intro e1 perr hre hc2r hcont
  obtain ⟨k, region, t, nr, old, up, hk, hkr, hregid, hpp, hnreq⟩ :=
    prepare_moving_relocation_facts hprep
  obtain ⟨hcs, dst_region, hdreg, hnrdec⟩ := prepare_placing_ok_facts hpp
  have hne : dst_region.id ≠ region.id := by
    rw [hnreq, hnrdec] at hnr
    exact of_decide_eq_true hnr
  have hrid : region.id = k := (hwf _ (lookupA_mem hkr)).1
  have horig : lookupA e.location.regions region.id = some region := by
    rw [hrid]; exact hkr
  have hnotin : region.coordinates.contains dst = false := by
    by_contra hcon
    have hmem : dst ∈ region.coordinates := by
      have h2 : region.coordinates.contains dst = true := by
        revert hcon
        cases region.coordinates.contains dst <;> simp
      simpa using h2
    have hc2rdst : lookupA e.location.coordinate_to_region dst = some k :=
      (hwf _ (lookupA_mem hkr)).2 dst hmem
    rw [Location.region_at] at hdreg
    obtain ⟨k2, hk2, hk2r⟩ := Option.bind_eq_some.mp hdreg
    rw [hc2rdst] at hk2
    injection hk2 with hk2
    subst hk2
    rw [hkr] at hk2r
    injection hk2r with hk2r
    exact hne (by rw [← hk2r])
  have hcdst : containsA e.location.map dst = true := (unit_can_step_facts hcs).1
  obtain ⟨orig2, horig2, hadj⟩ := (unit_can_step_facts hcs).2 dst_region hdreg hne
  rw [horig] at horig2
  injection horig2 with horig2
  subst horig2
  have horig1 : lookupA e1.location.regions prep.region_id = some region := by
    rw [hre, hregid]
    exact horig
  intro h
  exact engine_add_tile_no_error (hcont dst hcdst) horig1 hnotin hadj h

theorem create_no_error {e : GameEngine} {t : UnitType} {c : Coord}
    {lerr : LocationModificationError} {e1 : GameEngine}
    (hc : containsA e.location.map c = true) :
    e.create_and_place_unit t c ≠ (.error lerr, e1) := by
  intro h
  simp only [GameEngine.create_and_place_unit, IdProducer.next_id, IdProducer.next,
    UnitInfo.new] at h
  split at h
  next err heq =>
    unfold Location.place_unit at heq
    split at heq
    next hnone =>
      rw [containsA, hnone] at hc
      exact Bool.noConfusion hc
    next t0 ht0 => exact Except.noConfusion heq
  next loc heq =>
    injection h with h1 h2
    exact Except.noConfusion h1

theorem maybe_remove_unit_contains {e : GameEngine} {c : Coord}
    {r : Option (Unit × UnitInfo)} {e1 : GameEngine}
    (h : e.maybe_remove_unit c = some (r, e1)) :
    ∀ x, containsA e.location.map x = true → containsA e1.location.map x = true := by
  simp only [GameEngine.maybe_remove_unit] at h
  split at h
  next => exact Option.noConfusion h
  next loc heq =>
    unfold Location.remove_unit at heq
    split at heq
    next => exact Except.noConfusion heq
    next t0 ht0 =>
      injection heq with heq
      injection heq with hu hloc
      injection h with h1
      injection h1 with h2 h3
      subst h3
      rw [← hloc]
      intro x hx
      exact containsA_insertA _ _ _ _ hx
  next u loc heq =>
    unfold Location.remove_unit at heq
    split at heq
    next => exact Except.noConfusion heq
    next t0 ht0 =>
      injection heq with heq
      injection heq with hu hloc
      split at h
      next => exact Option.noConfusion h
      next info hinfo =>
        injection h with h1
        injection h1 with h2 h3
        subst h3
        rw [← hloc]
        intro x hx
        exact containsA_insertA _ _ _ _ hx

theorem prepare_buying_ok_facts {e : GameEngine} {pid rid : ID} {t : UnitType}
    {dst : Coord} {nr : Bool} {old : Option ID}
    (h : e.prepare_buying_unit pid rid t dst = some (.ok (nr, old))) :
    ∃ up, e.prepare_placing_unit pid rid t dst = some (.ok (nr, old, up)) := by
  simp only [GameEngine.prepare_buying_unit] at h
  split at h
  next => simp at h
  next =>
    split at h
    next => exact Option.noConfusion h
    next => simp at h
    next nr' old' up' hpp =>
      split at h
      next => simp at h
      next =>
        split at h
        next => exact Option.noConfusion h
        next rinfo hri =>
          split at h
          next => simp at h
          next =>
            injection h with h1
            injection h1 with h1
            injection h1 with h2 h3
            subst h2
            subst h3
            exact ⟨up', hpp⟩

theorem placing_add_tile_safe {e : GameEngine} {pid rid : ID} {t : UnitType}
    {dst : Coord} {old : Option ID} {up : Option UnitType}
    (hwf : locationWF e.location)
    (hpp : e.prepare_placing_unit pid rid t dst = some (.ok (true, old, up))) :
    ∀ (e1 : GameEngine) (perr : PlayerActionError),
      e1.location.regions = e.location.regions →
      e1.location.coordinate_to_region = e.location.coordinate_to_region →
      (∀ x, containsA e.location.map x = true → containsA e1.location.map x = true) →
      e1.add_tile_to_region dst rid ≠ some (.error perr) := by
  intro e1 perr hre hc2r hcont
  obtain ⟨hcs, dst_region, hdreg, hnrdec⟩ := prepare_placing_ok_facts hpp
  have hne : dst_region.id ≠ rid := of_decide_eq_true hnrdec.symm
  have hcdst : containsA e.location.map dst = true := (unit_can_step_facts hcs).1
  obtain ⟨orig, horig, hadj⟩ := (unit_can_step_facts hcs).2 dst_region hdreg hne
  have hoid : orig.id = rid := (hwf _ (lookupA_mem horig)).1
  have hnotin : orig.coordinates.contains dst = false := by
    by_contra hcon
    have hmem : dst ∈ orig.coordinates := by
      have h2 : orig.coordinates.contains dst = true := by
        revert hcon
        cases orig.coordinates.contains dst <;> simp
      simpa using h2
    have hc2rdst : lookupA e.location.coordinate_to_region dst = some rid :=
      (hwf _ (lookupA_mem horig)).2 dst hmem
    rw [Location.region_at] at hdreg
    obtain ⟨k2, hk2, hk2r⟩ := Option.bind_eq_some.mp hdreg
    rw [hc2rdst] at hk2
    injection hk2 with hk2
    subst hk2
    rw [horig] at hk2r
    injection hk2r with hk2r
    exact hne (by rw [← hk2r, hoid])
  have horig1 : lookupA e1.location.regions rid = some orig := by
    rw [hre]
    exact horig
  intro h
  exact engine_add_tile_no_error (hcont dst hcdst) horig1 hnotin hadj h

theorem move_unit_error_unchanged {e : GameEngine} {pid : ID} {src dst : Coord}
    {err : PlayerActionError} {e' : GameEngine}
    (hwf : locationWF e.location)
    (h : e.move_unit pid src dst = some (some err, e')) :
    e' = e := by
  simp only [GameEngine.move_unit] at h
  split at h
  next => exact Option.noConfusion h
  next err0 hp =>
    injection h with h1
    injection h1 with h2 h3
    exact h3.symm
  next prep hp =>
    split at h
    next lerr hmv =>
      injection h with h1
      injection h1 with h2 h3
      exact h3.symm
    next loc1 hmv =>
      obtain ⟨hre, hc2r, hcont⟩ := loc_move_unit_fields hmv
      split at h
      next heq => exact Option.noConfusion h
      next err2 e2 heq =>
        split at heq
        next hnr =>
          split at heq
          next => exact Option.noConfusion heq
          next err3 hadd =>
            exact absurd hadd (relocation_add_tile_safe hwf hp (by
              revert hnr
              cases prep.need_relocation <;> simp) _ err3 hre hc2r hcont)
          next e3 hadd => simp at heq
        next hnr => simp at heq
      next e2 heq =>
        split at h
        next => exact Option.noConfusion h
        next info hinfo =>
          split at h
          next => exact Option.noConfusion h
          next info2 hsub =>
            split at h
            next hup =>
              injection h with h1
              injection h1 with h2 h3
              exact Option.noConfusion h2
            next t hup =>
              split at h
              next => exact Option.noConfusion h
              next x hx => exact Option.noConfusion h
              next pr e5 hrem =>
                split at h
                next a b hab => exact Option.noConfusion h
                next nid e6 hcr =>
                  split at h
                  next => exact Option.noConfusion h
                  next oinf hoi =>
                    split at h
                    next hfull =>
                      split at h
                      next => exact Option.noConfusion h
                      next ni hni =>
                        injection h with h1
                        injection h1 with h2 h3
                        exact Option.noConfusion h2
                    next hfull =>
                      injection h with h1
                      injection h1 with h2 h3
                      exact Option.noConfusion h2

theorem create_and_place_contains {e : GameEngine} {t : UnitType} {c : Coord}
    {new_id : ID} {e1 : GameEngine}
    (h : e.create_and_place_unit t c = (.ok new_id, e1)) :
    ∀ x, containsA e.location.map x = true → containsA e1.location.map x = true := by
  simp only [GameEngine.create_and_place_unit, IdProducer.next_id, IdProducer.next,
    UnitInfo.new] at h
  split at h
  next err heq =>
    injection h with h1 h2
    exact Except.noConfusion h1
  next loc heq =>
    injection h with h1 h2
    subst h2
    unfold Location.place_unit at heq
    split at heq
    next => exact Except.noConfusion heq
    next t0 ht0 =>
      injection heq with heq
      subst heq
      intro x hx
      exact containsA_insertA _ _ _ _ hx

theorem prepare_upgrading_tile {e : GameEngine} {pid : ID} {dst : Coord}
    {rid : ID} {sum : Int} {ut : UnitType}
    (h : e.prepare_upgrading_unit pid dst = some (.ok (rid, sum, ut))) :
    containsA e.location.map dst = true := by
  simp only [GameEngine.prepare_upgrading_unit] at h
  split at h
  next => simp at h
  next region hreg =>
    split at h
    next => simp at h
    next hown =>
      split at h
      next htile => exact Option.noConfusion h
      next tile htile =>
        rw [Location.tile_at] at htile
        rw [containsA, htile]
        rfl

theorem place_new_unit_error_unchanged {e : GameEngine} {pid rid0 : ID}
    {t : UnitType} {dst : Coord} {err : PlayerActionError} {e' : GameEngine}
    (hwf : locationWF e.location)
    (h : e.place_new_unit pid rid0 t dst = some (some err, e')) :
    e' = e := by
  simp only [GameEngine.place_new_unit] at h
  split at h
  next => exact Option.noConfusion h
  next err0 hb =>
    injection h with h1
    injection h1 with h2 h3
    exact h3.symm
  next nr oldu hb =>
    obtain ⟨up, hpp⟩ := prepare_buying_ok_facts hb
    have hcdst : containsA e.location.map dst = true :=
      (unit_can_step_facts (prepare_placing_ok_facts hpp).1).1
    split at h
    next lerr e1 hcr => exact absurd hcr (create_no_error hcdst)
    next uid e1 hcr =>
      have hfields := create_and_place_fields hcr
      have hcont := create_and_place_contains hcr
      split at h
      next heq => exact Option.noConfusion h
      next err2 e2 heq =>
        split at heq
        next hnr =>
          split at heq
          next => exact Option.noConfusion heq
          next err3 hadd =>
            have hnr' : nr = true := by
              revert hnr
              cases nr <;> simp
            rw [hnr'] at hpp
            exact absurd hadd (placing_add_tile_safe hwf hpp _ err3
              hfields.1 hfields.2.1 hcont)
          next e3 hadd => simp at heq
        next hnr => simp at heq
      next e2 heq =>
        split at h
        next => exact Option.noConfusion h
        next e4 hmm =>
          injection h with h1
          injection h1 with h2 h3
          exact Option.noConfusion h2

theorem upgrade_unit_error_unchanged {e : GameEngine} {pid : ID} {dst : Coord}
    {err : PlayerActionError} {e' : GameEngine}
    (h : e.upgrade_unit pid dst = some (some err, e')) :
    e' = e := by
  simp only [GameEngine.upgrade_unit] at h
  split at h
  next => exact Option.noConfusion h
  next err0 hu =>
    injection h with h1
    injection h1 with h2 h3
    exact h3.symm
  next rid sum ut hu =>
    have hcdst : containsA e.location.map dst = true := prepare_upgrading_tile hu
    split at h
    next => exact Option.noConfusion h
    next x hx => exact Option.noConfusion h
    next pr e1 hrem =>
      have hcont := maybe_remove_unit_contains hrem
      split at h
      next lerr e2 hcr => exact absurd hcr (create_no_error (hcont dst hcdst))
      next uid e2 hcr =>
        split at h
        next => exact Option.noConfusion h
        next e3 hmm =>
          injection h with h1
          injection h1 with h2 h3
          exact Option.noConfusion h2


/-- C2: a rejected action changes nothing.  For every engine whose location
satisfies the well-formedness invariant (each region is registered under
its own id and every coordinate of a region maps back to it) and for every
`act` call that returns an error, the resulting engine equals the original
one: in particular every region's money, the whole location (unit
positions) and every unit's move record are unchanged. -/
theorem c2_rejected_action_state_unchanged :
    ∀ (e : GameEngine) (player_id : ID) (action : PlayerAction)
      (err : PlayerActionError) (e' : GameEngine),
      locationWF e.location →
      e.act player_id action = some (some err, e') →
      e' = e ∧ (∀ rid, e'.region_money rid = e.region_money rid) ∧
      e'.location = e.location ∧ e'.unit_info = e.unit_info := by
  intro e pid action err e' hwf h
  have he : e' = e := by
    simp only [GameEngine.act] at h
    split at h
    next => exact Option.noConfusion h
    next err0 hv =>
      injection h with h1
      injection h1 with h2 h3
      exact h3.symm
    next hv =>
      split at h
      next heq => exact Option.noConfusion h
      next err1 e1 heq =>
        injection h with h1
        injection h1 with h2 h3
        subst h3
        cases action with
        | MoveUnit src dst => exact move_unit_error_unchanged hwf heq
        | PlaceNewUnit rid0 t dst => exact place_new_unit_error_unchanged hwf heq
        | UpgradeUnit dst => exact upgrade_unit_error_unchanged heq
        | EndTurn =>
          cases hep : e.end_players_turn with
          | none => rw [hep] at heq; exact Option.noConfusion heq
          | some e2 => rw [hep] at heq; simp at heq
      next e1 heq =>
        split at h
        next => exact Option.noConfusion h
        next e2 hrc =>
          split at h
          next => exact Option.noConfusion h
          next e3 hca =>
            split at h
            next hval =>
              injection h with h1
              injection h1 with h2 h3
              exact Option.noConfusion h2
            next hval => exact Option.noConfusion h
  exact ⟨he, fun rid => by rw [he], by rw [he], by rw [he]⟩

/-- Witness for C2: buying an unaffordable Knight (cost 40, treasury 10)
for region 28 is rejected with `NotEnoughMoney` and leaves `testEngine`
untouched. -/
theorem c2_witness :
    stepEngineErr (testEngine.act 25 (.PlaceNewUnit 28 .Knight ⟨2,-1⟩))
      = testEngine ∧
    (stepEngineErr (testEngine.act 25 (.PlaceNewUnit 28 .Knight ⟨2,-1⟩))).region_money
      28 = testEngine.region_money 28 := by
  have h := c2_rejected_action_state_unchanged testEngine 25
    (.PlaceNewUnit 28 .Knight ⟨2,-1⟩) (.NotEnoughMoney 28)
    (stepEngineErr (testEngine.act 25 (.PlaceNewUnit 28 .Knight ⟨2,-1⟩)))
    (by decide) (by rfl)
  exact ⟨h.1, h.2.1 28⟩


/-! # C1: reachable states have valid locations -/

theorem validate_ok_location {e : GameEngine} {u : OkUnit}
    (h : e.validate = some (.ok u)) :
    validate_location e.location = some (.ok ⟨⟩) := by
  simp only [GameEngine.validate] at h
  split at h
  next => exact Option.noConfusion h
  next actives hact =>
    split at h
    next => exact Option.noConfusion h
    next err hl => simp at h
    next x hl =>
      cases x
      exact hl

theorem new_ok_location_valid {loc : Location} {players : List Player}
    {idp : IdProducer} {e : GameEngine}
    (h : GameEngine.new loc players idp = some (.ok e)) :
    validate_location e.location = some (.ok ⟨⟩) := by
  simp only [GameEngine.new] at h
  split at h
  next => exact Option.noConfusion h
  next e1 hrc =>
    split at h
    next => exact Option.noConfusion h
    next err hval => simp at h
    next x hval =>
      injection h with h1
      injection h1 with h1
      rw [← h1]
      show validate_location e1.location = some (.ok ⟨⟩)
      exact validate_ok_location hval

theorem act_ok_location_valid {e : GameEngine} {pid : ID} {action : PlayerAction}
    {e' : GameEngine} (h : e.act pid action = some (none, e')) :
    validate_location e'.location = some (.ok ⟨⟩) := by
  simp only [GameEngine.act] at h
  split at h
  next => exact Option.noConfusion h
  next err0 hv => simp at h
  next hv =>
    split at h
    next => exact Option.noConfusion h
    next err1 e1 heq => simp at h
    next e1 heq =>
      split at h
      next => exact Option.noConfusion h
      next e2 hrc =>
        split at h
        next => exact Option.noConfusion h
        next e3 hca =>
          split at h
          next x hval =>
            injection h with h1
            injection h1 with h2 h3
            rw [← h3]
            cases x
            exact validate_ok_location hval
          next hval => exact Option.noConfusion h

/-- C1: every reachable engine state (a validly constructed engine followed
by any sequence of successful `act` calls) has a location accepted by
`validate_location`: every land tile belongs to exactly one region and
every region contains only land tiles. -/
theorem c1_reachable_location_valid :
    ∀ e, Reachable e → validate_location e.location = some (.ok ⟨⟩) := by
  intro e h
  induction h with
  | base loc players idp e0 hnew => exact new_ok_location_valid hnew
  | step e0 e1 pid action he hact ih => exact act_ok_location_valid hact

/-- Witness for C1 at the engine of the repository's own test fixture. -/
theorem c1_witness : validate_location testEngine.location = some (.ok ⟨⟩) :=
  c1_reachable_location_valid testEngine
    (Reachable.base testLoc testPlayers ⟨36⟩ testEngine (by rfl))

end Yasc
